import Mathlib

/-!
Verification of the AI news digest pipeline (`github_ai_news_digest.py`).

The definitions below are a shallow embedding of the decision logic of the
pipeline: the story data model, the deduplicating classifier
(`ai_analyze_stories` and `fallback_categorization`), the headline candidate
filter of `fetch_headlines_from_source`, the audio renderer
(`generate_audio_digest` with its retry/backoff loop and the gTTS fallback),
and the daily pipeline driver (`generate_daily_ai_digest`) with its
idempotency guard.  External collaborators (HTTP fetching, the language-model
endpoint, the TTS byte streams, the clock) are modelled as explicit
parameters; the filesystem is modelled as an association list from paths to
file sizes, and observable side effects are recorded as an event trace.
Python floats on the similarity path are modelled as exact rationals: every
overlap ratio there is a quotient of two small set cardinalities, so the
float and rational comparisons against the thresholds agree.

Python string primitives (`str.split()`, `str.lower()`, `startswith`,
substring containment) are re-implemented structurally over the character
list of a `String`, so that every definition evaluates inside the kernel.
-/

/-- Python `str.lower()` (ASCII case folding, as in the titles involved). -/
def pyLower (s : String) : String :=
  ⟨s.data.map Char.toLower⟩

/-- Helper for `pySplit`: split a character list on whitespace runs,
accumulating the current (reversed) token; empty tokens are not produced,
matching Python `str.split()` with no arguments. -/
def splitWsAux : List Char → List Char → List (List Char)
  | [], acc => if acc.isEmpty then [] else [acc.reverse]
  | c :: cs, acc =>
    if c.isWhitespace then
      if acc.isEmpty then splitWsAux cs [] else acc.reverse :: splitWsAux cs []
    else splitWsAux cs (c :: acc)

/-- Python `str.split()`: whitespace-separated tokens, no empty tokens. -/
def pySplit (s : String) : List String :=
  (splitWsAux s.data []).map fun l => ⟨l⟩

/-- Does the first character list start with the second one? -/
def charsStartWith : List Char → List Char → Bool
  | _, [] => true
  | [], _ :: _ => false
  | c :: cs, d :: ds => c == d && charsStartWith cs ds

/-- Python `s.startswith(pre)`. -/
def pyStartsWith (s pre : String) : Bool :=
  charsStartWith s.data pre.data

/-- Helper for `pyContains`: does `sub` occur in the character list? -/
def charsContain (sub : List Char) : List Char → Bool
  | [] => sub.isEmpty
  | c :: tl => charsStartWith (c :: tl) sub || charsContain sub tl

/-- Python `sub in s`: `sub` occurs as a contiguous substring of `s`. -/
def pyContains (s sub : String) : Bool :=
  charsContain sub.data s.data

/-- The `NewsStory` dataclass: one extracted headline with provenance. -/
structure NewsStory where
  title : String
  source : String
  link : Option String := none
  timestamp : String := ""
  theme : Option String := none
  significance_score : Option Int := none
deriving DecidableEq, Repr

/-- One entry of the parsed model response for a theme:
`{"index": i, "significance": s, ...}` (the `reasoning` field is unused). -/
structure StoryAnalysis where
  index : Int
  significance : Int
deriving DecidableEq, Repr

/-- `set(word.lower() for word in story.title.split() if len(word) > 3 and word.isalpha())`:
the keyword set of a story title used by the deduplication post-filter. -/
def storyKeywords (title : String) : Finset String :=
  (((pySplit title).filter
      fun w => 3 < w.data.length && w.data.all Char.isAlpha).map pyLower).toFinset

/-- `overlap = len(a & b) / len(a | b)`: Jaccard overlap of two keyword sets,
as an exact rational (`0` when both sets are empty, matching the guarded use
in the source, which never divides by zero). -/
def jaccard (a b : Finset String) : ℚ :=
  mkRat ((a ∩ b).card : Int) ((a ∪ b).card)

/-- The duplicate check: some previously accepted keyword set (both sets
nonempty, as in the `if existing_keywords and story_keywords` guard) has
Jaccard overlap with the candidate strictly above the threshold. -/
def isDuplicate (overlap_threshold : ℚ) (seen_keywords : List (Finset String))
    (story_keywords : Finset String) : Bool :=
  seen_keywords.any fun existing =>
    decide existing.Nonempty && decide story_keywords.Nonempty &&
      decide (overlap_threshold < jaccard story_keywords existing)

/-- `x.significance_score or 0`: the sort key used by `ai_analyze_stories`
(`None` maps to `0`, and so does an explicit `0`). -/
def significanceKey (s : NewsStory) : Int :=
  s.significance_score.getD 0

/-- Insert a story into a list already sorted by descending significance,
before the first element of smaller-or-equal key (so that, of two equal-key
stories, the one earlier in the input stays first, as in Python's stable
sort). -/
def insertBySignificance (x : NewsStory) : List NewsStory → List NewsStory
  | [] => [x]
  | y :: ys =>
    if significanceKey y ≤ significanceKey x then x :: y :: ys
    else y :: insertBySignificance x ys

/-- `theme_stories.sort(key=lambda x: x.significance_score or 0, reverse=True)`:
stable sort, descending by significance (insertion sort). -/
def sortBySignificance : List NewsStory → List NewsStory
  | [] => []
  | x :: xs => insertBySignificance x (sortBySignificance xs)

/-- The `0.4` keyword-overlap threshold of `ai_analyze_stories`. -/
def aiOverlapThreshold : ℚ := mkRat 4 10

/-- The `0.5` keyword-overlap threshold of `fallback_categorization`. -/
def fallbackOverlapThreshold : ℚ := mkRat 5 10

/-- The inner per-theme loop of `ai_analyze_stories`: walk the model's story
entries in order; skip entries whose 1-based index is out of range
(`if 0 <= story_idx < len(all_stories)`); skip candidates whose keyword set
overlaps a previously accepted one above `0.4`; otherwise accept the story
with its theme and significance filled in and remember its keyword set.
The accepted story is recorded here as an updated copy: the source instead
mutates the shared `NewsStory` object in `all_stories`.  Control flow and the
per-theme snapshot coincide with the source (titles are never mutated); the
sharing of the story objects across themes is modelled by `aiThemeLoopMut`
below. -/
def aiThemeLoop (all_stories : List NewsStory) (theme : String) :
    List StoryAnalysis → List NewsStory → List (Finset String) → List NewsStory
  | [], theme_stories, _ => theme_stories
  | analysis :: rest, theme_stories, seen_keywords =>
    let story_idx : Int := analysis.index - 1
    match (if 0 ≤ story_idx ∧ story_idx < (all_stories.length : Int)
           then all_stories.get? story_idx.toNat else none) with
    | none => aiThemeLoop all_stories theme rest theme_stories seen_keywords
    | some story =>
      let story_keywords := storyKeywords story.title
      if isDuplicate aiOverlapThreshold seen_keywords story_keywords then
        aiThemeLoop all_stories theme rest theme_stories seen_keywords
      else
        let updated : NewsStory :=
          { story with theme := some theme,
                       significance_score := some analysis.significance }
        aiThemeLoop all_stories theme rest (theme_stories ++ [updated])
          (seen_keywords ++ [story_keywords])

/-- The theme-building part of `ai_analyze_stories` applied to the parsed
model response: a theme key is added only when its filtered story list is
nonempty, after sorting it by descending significance.  Each bucket here is
the per-theme snapshot at its build point; the aliasing of the returned
mapping through the shared, later-mutated story objects is modelled by
`applyAiAnalysisFinal` below. -/
def applyAiAnalysis (all_stories : List NewsStory)
    (ai_analysis : List (String × List StoryAnalysis)) :
    List (String × List NewsStory) :=
  ai_analysis.foldl
    (fun themes p =>
      let theme_stories := aiThemeLoop all_stories p.1 p.2 [] []
      if theme_stories.isEmpty then themes
      else themes ++ [(p.1, sortBySignificance theme_stories)])
    []

/-- `ai_analyze_stories`: raises unless AI is enabled and the story list is
nonempty; then, given the parsed JSON response of the (external) model call,
builds the theme mapping.  A model-call or parse failure is re-raised with
the wrapper message from the `except` clause. -/
def ai_analyze_stories (ai_enabled : Bool) (all_stories : List NewsStory)
    (parsed_response : Except String (List (String × List StoryAnalysis))) :
    Except String (List (String × List NewsStory)) :=
  if !ai_enabled || all_stories.isEmpty then
    Except.error
      "CRITICAL: AI Analysis is REQUIRED. Cannot produce professional news digest without AI analysis."
  else
    match parsed_response with
    | Except.error e =>
        Except.error
          ("AI Analysis failed and fallback is not acceptable for professional service: " ++ e)
    | Except.ok ai_analysis => Except.ok (applyAiAnalysis all_stories ai_analysis)

/-- The keyword table of `fallback_categorization`. -/
def theme_keywords : List (String × List String) :=
  [("politics", ["government", "minister", "parliament", "election", "policy", "mp",
                 "labour", "conservative"]),
   ("economy", ["economy", "inflation", "bank", "interest", "market", "business",
                "financial", "gdp"]),
   ("health", ["health", "nhs", "medical", "hospital", "covid", "vaccine", "doctor"]),
   ("international", ["ukraine", "russia", "china", "usa", "europe", "war", "conflict"]),
   ("climate", ["climate", "environment", "green", "carbon", "renewable", "energy"]),
   ("technology", ["technology", "tech", "ai", "digital", "cyber", "internet"]),
   ("crime", ["police", "court", "crime", "arrest", "investigation", "trial"])]

/-- The inner per-theme loop of `fallback_categorization`: keep stories whose
lowered title contains one of the theme's keywords, dropping candidates whose
keyword set overlaps a previously accepted one above `0.5`. -/
def fallbackThemeLoop (keywords : List String) (theme : String) :
    List NewsStory → List NewsStory → List (Finset String) → List NewsStory
  | [], theme_stories, _ => theme_stories
  | story :: rest, theme_stories, seen_keywords =>
    if keywords.any fun k => pyContains (pyLower story.title) k then
      let story_keywords := storyKeywords story.title
      if isDuplicate fallbackOverlapThreshold seen_keywords story_keywords then
        fallbackThemeLoop keywords theme rest theme_stories seen_keywords
      else
        fallbackThemeLoop keywords theme rest
          (theme_stories ++ [{ story with theme := some theme }])
          (seen_keywords ++ [story_keywords])
    else fallbackThemeLoop keywords theme rest theme_stories seen_keywords

/-- `fallback_categorization`: keyword-based bucketing with the `0.5`
deduplication threshold; a theme is kept only with at least two stories. -/
def fallback_categorization (all_stories : List NewsStory) :
    List (String × List NewsStory) :=
  theme_keywords.foldl
    (fun themes p =>
      let theme_stories := fallbackThemeLoop p.2 p.1 all_stories [] []
      if 2 ≤ theme_stories.length then themes ++ [(p.1, theme_stories)] else themes)
    []

/-- The boilerplate start markers of `fetch_headlines_from_source`:
`text.lower().startswith(('cookie', 'accept', 'subscribe', 'sign up', 'follow us'))`. -/
def boilerplateStarts : List String :=
  ["cookie", "accept", "subscribe", "sign up", "follow us"]

/-- The per-candidate filter of `fetch_headlines_from_source`:
`text and len(text) > 15 and len(text) < 200 and text not in seen_headlines
and not text.lower().startswith((...))`. -/
def headlineKeep (text : String) (seen_headlines : List String) : Bool :=
  !(text == "") && decide (15 < text.length) && decide (text.length < 200) &&
    !(seen_headlines.contains text) &&
    !(boilerplateStarts.any fun p => pyStartsWith (pyLower text) p)

/-- The filesystem as seen by the pipeline: path → size in bytes.  The head
of the list is the most recent write to a path. -/
def FS : Type := List (String × Nat)

/-- `os.path.exists`. -/
def fileExists (fs : FS) (path : String) : Bool :=
  (List.lookup path fs).isSome

/-- `os.path.getsize` (with the convention `0` for a missing file; the source
only calls it on paths it has checked or just written). -/
def getFileSize (fs : FS) (path : String) : Nat :=
  (List.lookup path fs).getD 0

/-- Write (create or overwrite) a file of the given size. -/
def setFile (fs : FS) (path : String) (size : Nat) : FS :=
  (path, size) :: fs

/-- Observable side effects of one pipeline run, in order. -/
inductive Event where
  | fetchCall (source url : String)
  | sleepSec (seconds : Nat)
  | edgeAttempt (n : Nat)
  | gttsCall
  | modelCall
  | writeText (path : String)
  | writeAudio (path : String)
deriving DecidableEq, Repr

/-- Outcome of one Edge TTS streaming call: either the total audio bytes
written to the output file, or the exception message. -/
inductive EdgeResult where
  | ok (audio_bytes : Nat)
  | err (msg : String)
deriving DecidableEq, Repr

/-- The external world of the audio renderer: the outcome of the n-th Edge
TTS call, the `GITHUB_ACTIONS` environment variable, the gTTS fallback
outcome (bytes written on success), and the pydub duration measurement
(`none` models `AudioSegment.from_mp3` raising). -/
structure TTSWorld where
  edge : Nat → EdgeResult
  github_actions : Option String
  gtts : Except String Nat
  measure : Option ℚ

/-- The authentication-class test of the retry loop:
`"401" in error_msg or "authentication" in error_msg.lower() or
"handshake" in error_msg.lower()`. -/
def isAuthErrorMsg (error_msg : String) : Bool :=
  pyContains error_msg "401" || pyContains (pyLower error_msg) "authentication" ||
    pyContains (pyLower error_msg) "handshake"

/-- `max_retries = 3` in `generate_audio_digest`. -/
def max_retries : Nat := 3

/-- Statistics returned by `generate_audio_digest`. -/
structure AudioStats where
  filename : String
  duration : ℚ
  words : Nat
  wps : ℚ
  size_kb : ℚ
deriving DecidableEq, Repr

/-- `len(digest_text.split())`. -/
def countWords (text : String) : Nat :=
  (pySplit text).length

/-- `generate_gtts_fallback`: one gTTS call; on success the audio file is
written and the estimated statistics (2 words per second) are returned; on
failure the combined error is raised. -/
def generate_gtts_fallback (w : TTSWorld) (digest_text output_filename : String)
    (fs : FS) : FS × List Event × Except String AudioStats :=
  match w.gtts with
  | Except.ok audio_bytes =>
    let word_count := countWords digest_text
    (setFile fs output_filename audio_bytes,
     [Event.gttsCall, Event.writeAudio output_filename],
     Except.ok { filename := output_filename,
                 duration := mkRat word_count 2,
                 words := word_count,
                 wps := 2,
                 size_kb := mkRat audio_bytes 1024 })
  | Except.error e =>
    (fs, [Event.gttsCall],
     Except.error ("Both Edge TTS and Google TTS failed: " ++ e))

/-- How the retry loop of `generate_audio_digest` was left. -/
inductive EdgeLoopExit where
  | finished
  | viaFallback (result : Except String AudioStats)
  | raised (msg : String)

/-- The retry loop of `generate_audio_digest`, driven by the iteration list
`range(max_retries)`.  On success the audio file is written and the loop
breaks (`finished`, like loop exhaustion, proceeds to the analysis block).
On an authentication-class error before the last attempt, sleep
`retry_delay` seconds and double the delay; on the last attempt, fall back
to gTTS when `GITHUB_ACTIONS == "true"` and raise otherwise.  On any other
error, raise immediately. -/
def edgeRetryLoop (w : TTSWorld) (digest_text output_filename : String) :
    List Nat → Nat → FS → List Event → FS × List Event × EdgeLoopExit
  | [], _, fs, events => (fs, events, EdgeLoopExit.finished)
  | attempt :: restAttempts, retry_delay, fs, events =>
    match w.edge attempt with
    | EdgeResult.ok audio_bytes =>
      (setFile fs output_filename audio_bytes,
       events ++ [Event.edgeAttempt attempt, Event.writeAudio output_filename],
       EdgeLoopExit.finished)
    | EdgeResult.err msg =>
      if isAuthErrorMsg msg then
        if attempt < max_retries - 1 then
          edgeRetryLoop w digest_text output_filename restAttempts (retry_delay * 2) fs
            (events ++ [Event.edgeAttempt attempt, Event.sleepSec retry_delay])
        else
          if w.github_actions == some "true" then
            let r := generate_gtts_fallback w digest_text output_filename fs
            (r.1, events ++ [Event.edgeAttempt attempt] ++ r.2.1,
             EdgeLoopExit.viaFallback r.2.2)
          else
            (fs, events ++ [Event.edgeAttempt attempt],
             EdgeLoopExit.raised
               ("Edge TTS authentication failed after 3 attempts: " ++ msg))
      else
        (fs, events ++ [Event.edgeAttempt attempt],
         EdgeLoopExit.raised ("Edge TTS failed with non-retryable error: " ++ msg))

/-- `generate_audio_digest`: run the retry loop (initial delay 10 s); if it
raised, propagate; if it returned through the gTTS fallback, return that
result; otherwise run the audio-analysis block, estimating the duration as
`word_count / 2.0` (and `words_per_second = 2.0`) when measurement fails. -/
def generate_audio_digest (w : TTSWorld) (digest_text output_filename : String)
    (fs : FS) : FS × List Event × Except String AudioStats :=
  let r := edgeRetryLoop w digest_text output_filename (List.range max_retries) 10 fs []
  match r.2.2 with
  | EdgeLoopExit.raised msg => (r.1, r.2.1, Except.error msg)
  | EdgeLoopExit.viaFallback res => (r.1, r.2.1, res)
  | EdgeLoopExit.finished =>
    let word_count := countWords digest_text
    match w.measure with
    | some duration_s =>
      let words_per_second : ℚ := if 0 < duration_s then word_count / duration_s else 0
      (r.1, r.2.1,
       Except.ok { filename := output_filename,
                   duration := duration_s,
                   words := word_count,
                   wps := words_per_second,
                   size_kb := mkRat (getFileSize r.1 output_filename) 1024 })
    | none =>
      (r.1, r.2.1,
       Except.ok { filename := output_filename,
                   duration := mkRat word_count 2,
                   words := word_count,
                   wps := 2,
                   size_kb := if fileExists r.1 output_filename then
                                mkRat (getFileSize r.1 output_filename) 1024
                              else 0 })

/-- The per-language configuration consumed by `generate_daily_ai_digest`. -/
structure PipelineConfig where
  output_dir : String
  audio_dir : String
  sources : List (String × String)
  ai_enabled : Bool

/-- `f"{output_dir}/news_digest_ai_{today_str}.txt"`. -/
def textFilenameOf (cfg : PipelineConfig) (today_str : String) : String :=
  cfg.output_dir ++ "/news_digest_ai_" ++ today_str ++ ".txt"

/-- `f"{audio_dir}/news_digest_ai_{today_str}.mp3"`. -/
def audioFilenameOf (cfg : PipelineConfig) (today_str : String) : String :=
  cfg.audio_dir ++ "/news_digest_ai_" ++ today_str ++ ".mp3"

/-- The value returned by `generate_daily_ai_digest`: the cost-optimization
early return (`regenerated: False`, with the existing audio size in KB) or a
freshly generated digest (`regenerated: True`). -/
inductive DigestOutcome where
  | existing (audio_file text_file : String) (ai_enabled : Bool) (size_kb : ℚ)
  | generated (audio_file text_file : String) (stats : AudioStats)
      (ai_enabled : Bool) (stories_analyzed : Nat)
deriving DecidableEq, Repr

/-- The metadata header written in front of the digest text file. -/
def digestHeader (now_str : String) (ai_enabled : Bool) : String :=
  "GITHUB AI-ENHANCED NEWS DIGEST\n" ++ String.mk (List.replicate 40 '=') ++ "\n" ++
    "Generated: " ++ now_str ++ "\n" ++
    "AI Analysis: " ++ (if ai_enabled then "ENABLED" else "DISABLED") ++ "\n" ++
    "Type: AI-synthesized content for accessibility\n" ++
    String.mk (List.replicate 40 '=') ++ "\n\n"

/-- `os.path.getsize(audio_filename) if os.path.exists(audio_filename) else 0`. -/
def audioSizeOf (cfg : PipelineConfig) (today_str : String) (fs : FS) : Nat :=
  if fileExists fs (audioFilenameOf cfg today_str) then
    getFileSize fs (audioFilenameOf cfg today_str)
  else 0

/-- The idempotency guard of `generate_daily_ai_digest` (`should_regenerate`
in the spec, inverted): both of today's files exist and the audio file
exceeds 50000 bytes. -/
def regenGuard (cfg : PipelineConfig) (today_str : String) (fs : FS) : Bool :=
  fileExists fs (textFilenameOf cfg today_str) &&
    fileExists fs (audioFilenameOf cfg today_str) &&
    decide (50000 < audioSizeOf cfg today_str fs)

/-- The story-aggregation loop of `generate_daily_ai_digest`: the
concatenation of each source's fetch result, in source order. -/
def allStoriesOf (cfg : PipelineConfig)
    (fetchResult : String → String → List NewsStory) : List NewsStory :=
  cfg.sources.foldl (fun acc p => acc ++ fetchResult p.1 p.2) []

/-- `generate_daily_ai_digest`.  `fetchResult name url` is the story list
returned by `fetch_headlines_from_source` for one source;
`create_digest` is the outcome of `create_ai_enhanced_digest`, which is
entirely made of language-model calls (classification and per-theme
synthesis) and raises on any of their failures.  Control flow mirrors the
source: compute today's file names; if both files exist and the audio file
exceeds 50000 bytes, return the existing statistics with no calls at all;
otherwise fetch all sources (sleeping 1 s after each), give up (returning
`none`) when no story was found, create the digest text, write the text
file, and only then render the audio. -/
def generate_daily_ai_digest (cfg : PipelineConfig) (today_str now_str : String)
    (fetchResult : String → String → List NewsStory)
    (create_digest : Except String String) (w : TTSWorld) (fs : FS) :
    FS × List Event × Except String (Option DigestOutcome) :=
  let text_filename := textFilenameOf cfg today_str
  let audio_filename := audioFilenameOf cfg today_str
  if regenGuard cfg today_str fs then
    (fs, [],
     Except.ok (some (DigestOutcome.existing audio_filename text_filename
       cfg.ai_enabled (mkRat (audioSizeOf cfg today_str fs) 1024))))
  else
    let fetchEvents := cfg.sources.foldl
      (fun evs p => evs ++ [Event.fetchCall p.1 p.2, Event.sleepSec 1]) []
    let all_stories := allStoriesOf cfg fetchResult
    if all_stories.isEmpty then (fs, fetchEvents, Except.ok none)
    else
      match create_digest with
      | Except.error e => (fs, fetchEvents ++ [Event.modelCall], Except.error e)
      | Except.ok digest_text =>
        let contents := digestHeader now_str cfg.ai_enabled ++ digest_text
        let fs1 := setFile fs text_filename contents.length
        let ev1 := fetchEvents ++ [Event.modelCall, Event.writeText text_filename]
        let r := generate_audio_digest w digest_text audio_filename fs1
        match r.2.2 with
        | Except.error e => (r.1, ev1 ++ r.2.1, Except.error e)
        | Except.ok stats =>
          (r.1, ev1 ++ r.2.1,
           Except.ok (some (DigestOutcome.generated audio_filename text_filename
             stats cfg.ai_enabled all_stories.length)))


/-! ### Lemmas about the deduplication post-filter -/

lemma jaccard_comm (a b : Finset String) : jaccard a b = jaccard b a := by
  unfold jaccard
  rw [Finset.inter_comm, Finset.union_comm]

lemma jaccard_nonneg (a b : Finset String) : 0 ≤ jaccard a b := by
  unfold jaccard
  rw [Rat.mkRat_eq_div]
  positivity

lemma jaccard_empty_left (b : Finset String) : jaccard ∅ b = 0 := by
  unfold jaccard
  simp

lemma jaccard_empty_right (a : Finset String) : jaccard a ∅ = 0 := by
  rw [jaccard_comm, jaccard_empty_left]

lemma jaccard_le_of_not_dup {thr : ℚ} (h0 : 0 ≤ thr)
    {seen : List (Finset String)} {kw : Finset String}
    (h : isDuplicate thr seen kw = false) :
    ∀ ex ∈ seen, jaccard ex kw ≤ thr := by
  intro ex hex
  have h' := List.any_eq_false.mp h ex hex
  simp only [Bool.and_eq_true, decide_eq_true_eq, not_and, not_lt] at h'
  rcases Finset.eq_empty_or_nonempty ex with he | he
  · rw [he, jaccard_empty_left]; exact h0
  · rcases Finset.eq_empty_or_nonempty kw with hk | hk
    · rw [hk, jaccard_empty_right]; exact h0
    · rw [jaccard_comm]; exact h' ⟨he, hk⟩

lemma pairwise_jaccard_snoc {thr : ℚ} (h0 : 0 ≤ thr)
    {acc : List NewsStory} {x : NewsStory}
    (hp : acc.Pairwise fun s t =>
      jaccard (storyKeywords s.title) (storyKeywords t.title) ≤ thr)
    (hnd : isDuplicate thr (acc.map fun s => storyKeywords s.title)
      (storyKeywords x.title) = false) :
    (acc ++ [x]).Pairwise fun s t =>
      jaccard (storyKeywords s.title) (storyKeywords t.title) ≤ thr := by
  rw [List.pairwise_append]
  refine ⟨hp, List.pairwise_singleton _ _, ?_⟩
  intro a ha b hb
  rw [List.mem_singleton] at hb
  subst hb
  exact jaccard_le_of_not_dup h0 hnd (storyKeywords a.title)
    (List.mem_map_of_mem (fun s => storyKeywords s.title) ha)

lemma aiThemeLoop_pairwise (all_stories : List NewsStory) (theme : String)
    (analyses : List StoryAnalysis) :
    ∀ (acc : List NewsStory) (seen : List (Finset String)),
      seen = acc.map (fun s => storyKeywords s.title) →
      acc.Pairwise (fun s t =>
        jaccard (storyKeywords s.title) (storyKeywords t.title) ≤ aiOverlapThreshold) →
      (aiThemeLoop all_stories theme analyses acc seen).Pairwise (fun s t =>
        jaccard (storyKeywords s.title) (storyKeywords t.title) ≤ aiOverlapThreshold) := by
  induction analyses with
  | nil => intro acc seen _ hp; exact hp
  | cons analysis rest ih =>
    intro acc seen hseen hp
    simp only [aiThemeLoop]
    split
    · exact ih acc seen hseen hp
    · split
      · exact ih acc seen hseen hp
      · rename_i story hM hdup
        rw [Bool.not_eq_true] at hdup
        refine ih _ _ ?_ ?_
        · simp [hseen]
        · refine pairwise_jaccard_snoc ?_ hp ?_
          · unfold aiOverlapThreshold; rw [Rat.mkRat_eq_div]; norm_num
          · rw [← hseen]; exact hdup

lemma fallbackThemeLoop_pairwise (keywords : List String) (theme : String)
    (stories : List NewsStory) :
    ∀ (acc : List NewsStory) (seen : List (Finset String)),
      seen = acc.map (fun s => storyKeywords s.title) →
      acc.Pairwise (fun s t =>
        jaccard (storyKeywords s.title) (storyKeywords t.title) ≤ fallbackOverlapThreshold) →
      (fallbackThemeLoop keywords theme stories acc seen).Pairwise (fun s t =>
        jaccard (storyKeywords s.title) (storyKeywords t.title) ≤ fallbackOverlapThreshold) := by
  induction stories with
  | nil => intro acc seen _ hp; exact hp
  | cons story rest ih =>
    intro acc seen hseen hp
    simp only [fallbackThemeLoop]
    split
    · split
      · exact ih acc seen hseen hp
      · rename_i hkw hdup
        rw [Bool.not_eq_true] at hdup
        refine ih _ _ ?_ ?_
        · simp [hseen]
        · refine pairwise_jaccard_snoc ?_ hp ?_
          · unfold fallbackOverlapThreshold; rw [Rat.mkRat_eq_div]; norm_num
          · rw [← hseen]; exact hdup
    · exact ih acc seen hseen hp

/-! ### Lemmas about the significance sort -/

lemma insertBySignificance_perm (x : NewsStory) (l : List NewsStory) :
    (insertBySignificance x l).Perm (x :: l) := by
  induction l with
  | nil => exact List.Perm.refl _
  | cons y ys ih =>
    rw [insertBySignificance]
    split
    · exact List.Perm.refl _
    · exact (List.Perm.cons y ih).trans (List.Perm.swap x y ys)

lemma sortBySignificance_perm (l : List NewsStory) :
    (sortBySignificance l).Perm l := by
  induction l with
  | nil => exact List.Perm.refl _
  | cons x xs ih =>
    rw [sortBySignificance]
    exact (insertBySignificance_perm x (sortBySignificance xs)).trans (List.Perm.cons x ih)

lemma insertBySignificance_sorted (x : NewsStory) (l : List NewsStory)
    (hs : l.Pairwise fun s t => significanceKey t ≤ significanceKey s) :
    (insertBySignificance x l).Pairwise fun s t => significanceKey t ≤ significanceKey s := by
  induction l with
  | nil => simp [insertBySignificance]
  | cons y ys ih =>
    rw [insertBySignificance]
    rw [List.pairwise_cons] at hs
    split
    · rename_i hyx
      refine List.pairwise_cons.mpr ⟨?_, List.pairwise_cons.mpr hs⟩
      intro z hz
      rcases List.mem_cons.mp hz with rfl | hz'
      · exact hyx
      · exact le_trans (hs.1 z hz') hyx
    · rename_i hyx
      push_neg at hyx
      refine List.pairwise_cons.mpr ⟨?_, ih hs.2⟩
      intro z hz
      rcases List.mem_cons.mp ((insertBySignificance_perm x ys).mem_iff.mp hz) with rfl | hz'
      · exact le_of_lt hyx
      · exact hs.1 z hz'

lemma sortBySignificance_sorted (l : List NewsStory) :
    (sortBySignificance l).Pairwise fun s t => significanceKey t ≤ significanceKey s := by
  induction l with
  | nil => simp [sortBySignificance]
  | cons x xs ih => exact insertBySignificance_sorted x (sortBySignificance xs) ih

lemma sortBySignificance_eq_nil_iff (l : List NewsStory) :
    sortBySignificance l = [] ↔ l = [] := by
  constructor
  · intro h
    have := (sortBySignificance_perm l).length_eq
    rw [h] at this
    exact List.eq_nil_of_length_eq_zero this.symm
  · rintro rfl
    rfl

/-- The pairwise overlap bound is symmetric, hence preserved by sorting. -/
lemma pairwise_jaccard_sort {thr : ℚ} (l : List NewsStory)
    (hp : l.Pairwise fun s t =>
      jaccard (storyKeywords s.title) (storyKeywords t.title) ≤ thr) :
    (sortBySignificance l).Pairwise fun s t =>
      jaccard (storyKeywords s.title) (storyKeywords t.title) ≤ thr := by
  refine (List.Perm.pairwise_iff ?_ (sortBySignificance_perm l)).mpr hp
  intro x y hxy
  rw [jaccard_comm]
  exact hxy

lemma mem_applyAiAnalysis_foldl (a : List NewsStory)
    (l : List (String × List StoryAnalysis)) :
    ∀ (init : List (String × List NewsStory)) (t : String) (bucket : List NewsStory),
      ((t, bucket) ∈ l.foldl
        (fun themes p =>
          let theme_stories := aiThemeLoop a p.1 p.2 [] []
          if theme_stories.isEmpty then themes
          else themes ++ [(p.1, sortBySignificance theme_stories)]) init ↔
       (t, bucket) ∈ init ∨ ∃ analyses, (t, analyses) ∈ l ∧
         (aiThemeLoop a t analyses [] []).isEmpty = false ∧
         bucket = sortBySignificance (aiThemeLoop a t analyses [] [])) := by
  induction l with
  | nil => intro init t bucket; simp
  | cons p ps ih =>
    intro init t bucket
    rw [List.foldl_cons, ih]
    by_cases hemp : (aiThemeLoop a p.1 p.2 [] []).isEmpty = true
    · simp only [hemp, if_true]
      constructor
      · rintro (h | ⟨as, hmem, hne, hb⟩)
        · exact Or.inl h
        · exact Or.inr ⟨as, List.mem_cons_of_mem p hmem, hne, hb⟩
      · rintro (h | ⟨as, hmem, hne, hb⟩)
        · exact Or.inl h
        · rcases List.mem_cons.mp hmem with heq | hmem'
          · exfalso
            cases p with
            | mk p1 p2 =>
              obtain ⟨ht, hastwo⟩ := Prod.mk.injEq t as p1 p2 |>.mp heq
              rw [← ht, ← hastwo] at hemp
              rw [hemp] at hne
              exact Bool.true_eq_false.mp hne
          · exact Or.inr ⟨as, hmem', hne, hb⟩
    · rw [Bool.not_eq_true] at hemp
      simp only [hemp, Bool.false_eq_true, if_false]
      constructor
      · rintro (h | ⟨as, hmem, hne, hb⟩)
        · rcases List.mem_append.mp h with h' | h'
          · exact Or.inl h'
          · rw [List.mem_singleton] at h'
            cases p with
            | mk p1 p2 =>
              obtain ⟨ht, hb⟩ := Prod.mk.injEq t bucket p1 (sortBySignificance (aiThemeLoop a p1 p2 [] [])) |>.mp h'
              subst ht
              exact Or.inr ⟨p2, List.mem_cons_self _ _, hemp, hb⟩
        · exact Or.inr ⟨as, List.mem_cons_of_mem p hmem, hne, hb⟩
      · rintro (h | ⟨as, hmem, hne, hb⟩)
        · exact Or.inl (List.mem_append_left _ h)
        · rcases List.mem_cons.mp hmem with heq | hmem'
          · cases p with
            | mk p1 p2 =>
              obtain ⟨ht, hastwo⟩ := Prod.mk.injEq t as p1 p2 |>.mp heq
              subst ht
              subst hastwo
              refine Or.inl (List.mem_append_right _ ?_)
              rw [List.mem_singleton, hb]
          · exact Or.inr ⟨as, hmem', hne, hb⟩

lemma mem_applyAiAnalysis_iff (a : List NewsStory)
    (l : List (String × List StoryAnalysis)) (t : String) (bucket : List NewsStory) :
    (t, bucket) ∈ applyAiAnalysis a l ↔
      ∃ analyses, (t, analyses) ∈ l ∧
        (aiThemeLoop a t analyses [] []).isEmpty = false ∧
        bucket = sortBySignificance (aiThemeLoop a t analyses [] []) := by
  rw [applyAiAnalysis, mem_applyAiAnalysis_foldl]
  simp

lemma mem_fallback_foldl (all_stories : List NewsStory)
    (l : List (String × List String)) :
    ∀ (init : List (String × List NewsStory)) (t : String) (bucket : List NewsStory),
      ((t, bucket) ∈ l.foldl
        (fun themes p =>
          let theme_stories := fallbackThemeLoop p.2 p.1 all_stories [] []
          if 2 ≤ theme_stories.length then themes ++ [(p.1, theme_stories)] else themes)
        init ↔
       (t, bucket) ∈ init ∨ ∃ kws, (t, kws) ∈ l ∧
         2 ≤ (fallbackThemeLoop kws t all_stories [] []).length ∧
         bucket = fallbackThemeLoop kws t all_stories [] []) := by
  induction l with
  | nil => intro init t bucket; simp
  | cons p ps ih =>
    intro init t bucket
    rw [List.foldl_cons, ih]
    by_cases hlen : 2 ≤ (fallbackThemeLoop p.2 p.1 all_stories [] []).length
    · simp only [hlen, if_true]
      constructor
      · rintro (h | ⟨kws, hmem, hle, hb⟩)
        · rcases List.mem_append.mp h with h' | h'
          · exact Or.inl h'
          · rw [List.mem_singleton] at h'
            cases p with
            | mk p1 p2 =>
              obtain ⟨ht, hb⟩ := Prod.mk.injEq t bucket p1 (fallbackThemeLoop p2 p1 all_stories [] []) |>.mp h'
              subst ht
              exact Or.inr ⟨p2, List.mem_cons_self _ _, hlen, hb⟩
        · exact Or.inr ⟨kws, List.mem_cons_of_mem p hmem, hle, hb⟩
      · rintro (h | ⟨kws, hmem, hle, hb⟩)
        · exact Or.inl (List.mem_append_left _ h)
        · rcases List.mem_cons.mp hmem with heq | hmem'
          · cases p with
            | mk p1 p2 =>
              obtain ⟨ht, hkws⟩ := Prod.mk.injEq t kws p1 p2 |>.mp heq
              subst ht
              subst hkws
              refine Or.inl (List.mem_append_right _ ?_)
              rw [List.mem_singleton, hb]
          · exact Or.inr ⟨kws, hmem', hle, hb⟩
    · simp only [hlen, if_false]
      constructor
      · rintro (h | ⟨kws, hmem, hle, hb⟩)
        · exact Or.inl h
        · exact Or.inr ⟨kws, List.mem_cons_of_mem p hmem, hle, hb⟩
      · rintro (h | ⟨kws, hmem, hle, hb⟩)
        · exact Or.inl h
        · rcases List.mem_cons.mp hmem with heq | hmem'
          · exfalso
            cases p with
            | mk p1 p2 =>
              obtain ⟨ht, hkws⟩ := Prod.mk.injEq t kws p1 p2 |>.mp heq
              rw [← ht, ← hkws] at hlen
              exact hlen hle
          · exact Or.inr ⟨kws, hmem', hle, hb⟩

lemma mem_fallback_categorization_iff (all_stories : List NewsStory)
    (t : String) (bucket : List NewsStory) :
    (t, bucket) ∈ fallback_categorization all_stories ↔
      ∃ kws, (t, kws) ∈ theme_keywords ∧
        2 ≤ (fallbackThemeLoop kws t all_stories [] []).length ∧
        bucket = fallbackThemeLoop kws t all_stories [] [] := by
  rw [fallback_categorization, mem_fallback_foldl]
  simp

lemma list_isEmpty_false_iff {α : Type} (l : List α) : l.isEmpty = false ↔ l ≠ [] := by
  cases l <;> simp

lemma aiOverlapThreshold_eq : aiOverlapThreshold = (0.4 : ℚ) := by
  unfold aiOverlapThreshold
  rw [Rat.mkRat_eq_div]
  norm_num

lemma fallbackOverlapThreshold_eq : fallbackOverlapThreshold = (0.5 : ℚ) := by
  unfold fallbackOverlapThreshold
  rw [Rat.mkRat_eq_div]
  norm_num

/-! ### The claims about the classifier -/

/-- Claim C1: in every theme bucket produced by the classifier's post-filter,
any two retained stories have keyword-set Jaccard overlap at most `0.4` on
the model-assisted path (`ai_analyze_stories`) and at most `0.5` on the
keyword-only fallback path (`fallback_categorization`). -/
theorem dedup_invariant :
    (∀ (all_stories : List NewsStory) (ai_analysis : List (String × List StoryAnalysis))
        (theme : String) (bucket : List NewsStory),
        (theme, bucket) ∈ applyAiAnalysis all_stories ai_analysis →
        bucket.Pairwise fun s t =>
          jaccard (storyKeywords s.title) (storyKeywords t.title) ≤ 0.4) ∧
    (∀ (all_stories : List NewsStory) (theme : String) (bucket : List NewsStory),
        (theme, bucket) ∈ fallback_categorization all_stories →
        bucket.Pairwise fun s t =>
          jaccard (storyKeywords s.title) (storyKeywords t.title) ≤ 0.5) := by
  constructor
  · intro a l t bucket hmem
    obtain ⟨as, _, _, hb⟩ := (mem_applyAiAnalysis_iff a l t bucket).mp hmem
    subst hb
    rw [← aiOverlapThreshold_eq]
    exact pairwise_jaccard_sort _ (aiThemeLoop_pairwise a t as [] [] rfl List.Pairwise.nil)
  · intro a t bucket hmem
    obtain ⟨kws, _, _, hb⟩ := (mem_fallback_categorization_iff a t bucket).mp hmem
    subst hb
    rw [← fallbackOverlapThreshold_eq]
    exact fallbackThemeLoop_pairwise kws t a [] [] rfl List.Pairwise.nil

lemma aiThemeLoop_filter_in_range (all_stories : List NewsStory) (theme : String)
    (analyses : List StoryAnalysis) :
    ∀ (acc : List NewsStory) (seen : List (Finset String)),
      aiThemeLoop all_stories theme analyses acc seen =
        aiThemeLoop all_stories theme
          (analyses.filter fun a =>
            decide (1 ≤ a.index) && decide (a.index ≤ (all_stories.length : Int)))
          acc seen := by
  induction analyses with
  | nil => intro acc seen; rfl
  | cons a rest ih =>
    intro acc seen
    rw [List.filter_cons]
    by_cases hin : 1 ≤ a.index ∧ a.index ≤ (all_stories.length : Int)
    · have hpa : (decide (1 ≤ a.index) && decide (a.index ≤ (all_stories.length : Int))) = true := by
        simp [hin.1, hin.2]
      rw [hpa]
      simp only [if_true]
      have hcond : 0 ≤ a.index - 1 ∧ a.index - 1 < (all_stories.length : Int) := by omega
      have hlt : (a.index - 1).toNat < all_stories.length := by omega
      have hstory : all_stories.get? (a.index - 1).toNat =
          some (all_stories.get ⟨(a.index - 1).toNat, hlt⟩) := List.get?_eq_get hlt
      simp only [aiThemeLoop, if_pos hcond, hstory]
      split
      · exact ih _ _
      · exact ih _ _
    · have hpa : (decide (1 ≤ a.index) && decide (a.index ≤ (all_stories.length : Int))) = false := by
        rcases not_and_or.mp hin with h | h <;> simp [h]
      rw [hpa]
      simp only [Bool.false_eq_true, if_false]
      have hcond : ¬(0 ≤ a.index - 1 ∧ a.index - 1 < (all_stories.length : Int)) := by omega
      simp only [aiThemeLoop, if_neg hcond]
      exact ih acc seen

/-- Claim C9: a story entry whose 1-based index falls outside `1..N` is
silently skipped by the theme-building loop of `ai_analyze_stories`: the loop
computes the same result as on the response with those entries removed, and
in particular never indexes outside the input story list. -/
theorem out_of_range_indices_skipped (all_stories : List NewsStory) (theme : String)
    (analyses : List StoryAnalysis) :
    aiThemeLoop all_stories theme analyses [] [] =
      aiThemeLoop all_stories theme
        (analyses.filter fun a =>
          decide (1 ≤ a.index) && decide (a.index ≤ (all_stories.length : Int))) [] [] :=
  aiThemeLoop_filter_in_range all_stories theme analyses [] []

/-! ### The claims about the renderer and the classifier guard -/

/-- Claim C7: calling the classifier with an empty list of stories raises
(returns an error) rather than returning an empty theme mapping, whatever the
AI flag and the model response. -/
theorem classify_empty_raises (ai_enabled : Bool)
    (parsed_response : Except String (List (String × List StoryAnalysis))) :
    ai_analyze_stories ai_enabled [] parsed_response =
      Except.error "CRITICAL: AI Analysis is REQUIRED. Cannot produce professional news digest without AI analysis." := by
  simp [ai_analyze_stories]

def isEdgeAttempt : Event → Bool
  | Event.edgeAttempt _ => true
  | _ => false

def countAttempts (events : List Event) : Nat :=
  (events.filter isEdgeAttempt).length

def eventSleep : Event → Option Nat
  | Event.sleepSec n => some n
  | _ => none

def sleepsOf (events : List Event) : List Nat :=
  events.filterMap eventSleep

def isAuthAttempt : EdgeResult → Bool
  | EdgeResult.ok _ => false
  | EdgeResult.err m => isAuthErrorMsg m

/-- Claim C4: if every Edge TTS call raises an authentication-class error,
the renderer makes exactly 3 attempts, sleeping 10 seconds before the second
and 20 seconds before the third, then invokes the gTTS fallback when
`GITHUB_ACTIONS` equals `"true"` and raises otherwise. -/
theorem retry_bound_on_auth_failure (w : TTSWorld) (digest_text output_filename : String)
    (fs : FS) (hall : ∀ n, n < max_retries → isAuthAttempt (w.edge n) = true) :
    countAttempts (generate_audio_digest w digest_text output_filename fs).2.1 = 3 ∧
    sleepsOf (generate_audio_digest w digest_text output_filename fs).2.1 = [10, 20] ∧
    (w.github_actions = some "true" →
      Event.gttsCall ∈ (generate_audio_digest w digest_text output_filename fs).2.1) ∧
    (w.github_actions ≠ some "true" →
      Event.gttsCall ∉ (generate_audio_digest w digest_text output_filename fs).2.1 ∧
      ∃ m, (generate_audio_digest w digest_text output_filename fs).2.2 =
        Except.error ("Edge TTS authentication failed after 3 attempts: " ++ m)) := by
  have hm : ∀ n, n < 3 → ∃ m, w.edge n = EdgeResult.err m ∧ isAuthErrorMsg m = true := by
    intro n hn
    have h := hall n hn
    cases he : w.edge n with
    | ok b => rw [he] at h; exact absurd h (by simp [isAuthAttempt])
    | err m => rw [he] at h; exact ⟨m, rfl, h⟩
  obtain ⟨m0, he0, ha0⟩ := hm 0 (by norm_num)
  obtain ⟨m1, he1, ha1⟩ := hm 1 (by norm_num)
  obtain ⟨m2, he2, ha2⟩ := hm 2 (by norm_num)
  have hr : List.range max_retries = [0, 1, 2] := rfl
  by_cases hga : w.github_actions = some "true"
  · have hb : (w.github_actions == some "true") = true := by simp [hga]
    cases hg : w.gtts with
    | ok bytes =>
      refine ⟨?_, ?_, ?_, ?_⟩
      · simp +decide [generate_audio_digest, hr, edgeRetryLoop, he0, he1, he2, ha0, ha1, ha2,
          hb, generate_gtts_fallback, hg, max_retries, countAttempts, isEdgeAttempt]
      · simp +decide [generate_audio_digest, hr, edgeRetryLoop, he0, he1, he2, ha0, ha1, ha2,
          hb, generate_gtts_fallback, hg, max_retries, sleepsOf, eventSleep]
      · intro _
        simp +decide [generate_audio_digest, hr, edgeRetryLoop, he0, he1, he2, ha0, ha1, ha2,
          hb, generate_gtts_fallback, hg, max_retries]
      · intro h; exact absurd hga h
    | error e =>
      refine ⟨?_, ?_, ?_, ?_⟩
      · simp +decide [generate_audio_digest, hr, edgeRetryLoop, he0, he1, he2, ha0, ha1, ha2,
          hb, generate_gtts_fallback, hg, max_retries, countAttempts, isEdgeAttempt]
      · simp +decide [generate_audio_digest, hr, edgeRetryLoop, he0, he1, he2, ha0, ha1, ha2,
          hb, generate_gtts_fallback, hg, max_retries, sleepsOf, eventSleep]
      · intro _
        simp +decide [generate_audio_digest, hr, edgeRetryLoop, he0, he1, he2, ha0, ha1, ha2,
          hb, generate_gtts_fallback, hg, max_retries]
      · intro h; exact absurd hga h
  · have hb : (w.github_actions == some "true") = false := by
      simp only [beq_eq_false_iff_ne, ne_eq]
      exact hga
    refine ⟨?_, ?_, ?_, ?_⟩
    · simp +decide [generate_audio_digest, hr, edgeRetryLoop, he0, he1, he2, ha0, ha1, ha2,
        hb, max_retries, countAttempts, isEdgeAttempt]
    · simp +decide [generate_audio_digest, hr, edgeRetryLoop, he0, he1, he2, ha0, ha1, ha2,
        hb, max_retries, sleepsOf, eventSleep]
    · intro h; exact absurd h hga
    · intro _
      refine ⟨?_, ⟨m2, ?_⟩⟩
      · simp +decide [generate_audio_digest, hr, edgeRetryLoop, he0, he1, he2, ha0, ha1, ha2,
          hb, max_retries]
      · simp +decide [generate_audio_digest, hr, edgeRetryLoop, he0, he1, he2, ha0, ha1, ha2,
          hb, max_retries]

/-- Claim C6: if the first Edge TTS call raises a non-authentication error,
the renderer makes exactly 1 attempt, never sleeps, never invokes the
fallback provider whatever the environment, and raises immediately. -/
theorem no_retry_on_non_auth_error (w : TTSWorld) (digest_text output_filename : String)
    (fs : FS) (m : String) (h0 : w.edge 0 = EdgeResult.err m)
    (hna : isAuthErrorMsg m = false) :
    countAttempts (generate_audio_digest w digest_text output_filename fs).2.1 = 1 ∧
    sleepsOf (generate_audio_digest w digest_text output_filename fs).2.1 = [] ∧
    Event.gttsCall ∉ (generate_audio_digest w digest_text output_filename fs).2.1 ∧
    (generate_audio_digest w digest_text output_filename fs).2.2 =
      Except.error ("Edge TTS failed with non-retryable error: " ++ m) := by
  have hr : List.range max_retries = [0, 1, 2] := rfl
  refine ⟨?_, ?_, ?_, ?_⟩ <;>
    simp +decide [generate_audio_digest, hr, edgeRetryLoop, h0, hna, max_retries,
      countAttempts, isEdgeAttempt, sleepsOf, eventSleep]

/-- Claim C8: when duration measurement of the rendered audio file throws,
the renderer still succeeds, returning an estimated duration equal to
`word_count / 2.0` seconds and a words-per-second value of exactly `2.0`. -/
theorem audio_stats_estimation_fallback (w : TTSWorld) (digest_text output_filename : String)
    (fs : FS) (audio_bytes : Nat) (h0 : w.edge 0 = EdgeResult.ok audio_bytes)
    (hm : w.measure = none) :
    ∃ stats, (generate_audio_digest w digest_text output_filename fs).2.2 = Except.ok stats ∧
      stats.duration = (countWords digest_text : ℚ) / 2 ∧ stats.wps = 2 := by
  have hr : List.range max_retries = [0, 1, 2] := rfl
  simp only [generate_audio_digest, hr, edgeRetryLoop, h0, hm]
  refine ⟨_, rfl, ?_, rfl⟩
  rw [Rat.mkRat_eq_div]
  push_cast
  rfl

/-! ### The claims about the pipeline driver -/

/-- Claim C5: when both of today's output files exist and the audio file
exceeds 50000 bytes, the pipeline performs zero network or model calls
(the event trace is empty), skips all regeneration (the filesystem is
unchanged), and returns the existing file paths and sizes. -/
theorem idempotency_guard (cfg : PipelineConfig) (today_str now_str : String)
    (fetchResult : String → String → List NewsStory)
    (create_digest : Except String String) (w : TTSWorld) (fs : FS)
    (htext : fileExists fs (textFilenameOf cfg today_str) = true)
    (haudio : fileExists fs (audioFilenameOf cfg today_str) = true)
    (hsize : 50000 < getFileSize fs (audioFilenameOf cfg today_str)) :
    generate_daily_ai_digest cfg today_str now_str fetchResult create_digest w fs =
      (fs, [],
       Except.ok (some (DigestOutcome.existing (audioFilenameOf cfg today_str)
         (textFilenameOf cfg today_str) cfg.ai_enabled
         (mkRat (getFileSize fs (audioFilenameOf cfg today_str)) 1024)))) := by
  have hsz : audioSizeOf cfg today_str fs = getFileSize fs (audioFilenameOf cfg today_str) := by
    simp [audioSizeOf, haudio]
  have hguard : regenGuard cfg today_str fs = true := by
    simp [regenGuard, htext, haudio, hsz, hsize]
  simp [generate_daily_ai_digest, hguard, hsz]

lemma fileExists_setFile_self (fs : FS) (p : String) (n : Nat) :
    fileExists (setFile fs p n) p = true := by
  simp [fileExists, setFile, List.lookup]

lemma fileExists_setFile_mono (fs : FS) (p q : String) (n : Nat)
    (h : fileExists fs p = true) :
    fileExists (setFile fs q n) p = true := by
  by_cases hpq : (p == q) = true
  · simp [fileExists, setFile, List.lookup, hpq]
  · rw [Bool.not_eq_true] at hpq
    simp [fileExists, setFile, List.lookup, hpq]
    simpa [fileExists] using h

lemma edgeRetryLoop_fileExists_mono (w : TTSWorld) (digest_text output_filename p : String)
    (attempts : List Nat) :
    ∀ (delay : Nat) (fs : FS) (events : List Event),
      fileExists fs p = true →
      fileExists (edgeRetryLoop w digest_text output_filename attempts delay fs events).1 p
        = true := by
  induction attempts with
  | nil => intro delay fs events h; exact h
  | cons a rest ih =>
    intro delay fs events h
    cases he : w.edge a with
    | ok b =>
      simp only [edgeRetryLoop, he]
      exact fileExists_setFile_mono fs p output_filename b h
    | err m =>
      simp only [edgeRetryLoop, he]
      split
      · split
        · exact ih _ _ _ h
        · split
          · cases hg : w.gtts with
            | ok bytes =>
              simp only [generate_gtts_fallback, hg]
              exact fileExists_setFile_mono fs p output_filename bytes h
            | error e =>
              simp only [generate_gtts_fallback, hg]
              exact h
          · exact h
      · exact h

lemma generate_audio_digest_fileExists_mono (w : TTSWorld) (digest_text output_filename p : String)
    (fs : FS) (h : fileExists fs p = true) :
    fileExists (generate_audio_digest w digest_text output_filename fs).1 p = true := by
  have hmono := edgeRetryLoop_fileExists_mono w digest_text output_filename p
    (List.range max_retries) 10 fs [] h
  rcases hE : edgeRetryLoop w digest_text output_filename (List.range max_retries) 10 fs []
    with ⟨fs2, evs2, ex⟩
  rw [hE] at hmono
  cases ex <;> cases hM : w.measure <;> simp [generate_audio_digest, hE, hM] <;> simpa using hmono

/-- Claim C2 (amended): a classification or synthesis failure leaves the
filesystem unchanged, but the digest text file is written before audio
rendering, so when audio rendering fails after the digest text was produced,
the text file for the day is left on disk while the error propagates. -/
theorem text_write_precedes_audio (cfg : PipelineConfig) (today_str now_str : String)
    (fetchResult : String → String → List NewsStory) (w : TTSWorld) (fs : FS) :
    (∀ e, (generate_daily_ai_digest cfg today_str now_str fetchResult
        (Except.error e) w fs).1 = fs) ∧
    (∀ digest_text : String,
      regenGuard cfg today_str fs = false →
      (allStoriesOf cfg fetchResult).isEmpty = false →
      fileExists
        (generate_daily_ai_digest cfg today_str now_str fetchResult
          (Except.ok digest_text) w fs).1 (textFilenameOf cfg today_str) = true ∧
      ∀ e, (generate_audio_digest w digest_text (audioFilenameOf cfg today_str)
          (setFile fs (textFilenameOf cfg today_str)
            (digestHeader now_str cfg.ai_enabled ++ digest_text).length)).2.2 =
          Except.error e →
        (generate_daily_ai_digest cfg today_str now_str fetchResult
          (Except.ok digest_text) w fs).2.2 = Except.error e) := by
  constructor
  · intro e
    simp only [generate_daily_ai_digest]
    split
    · rfl
    · split
      · rfl
      · rfl
  · intro digest_text hguard hstories
    have htext1 : fileExists (setFile fs (textFilenameOf cfg today_str)
        (digestHeader now_str cfg.ai_enabled ++ digest_text).length)
        (textFilenameOf cfg today_str) = true :=
      fileExists_setFile_self _ _ _
    have hmono := generate_audio_digest_fileExists_mono w digest_text
      (audioFilenameOf cfg today_str) (textFilenameOf cfg today_str) _ htext1
    rcases hR : generate_audio_digest w digest_text (audioFilenameOf cfg today_str)
        (setFile fs (textFilenameOf cfg today_str)
          (digestHeader now_str cfg.ai_enabled ++ digest_text).length)
      with ⟨fs2, ev2, res⟩
    rw [hR] at hmono
    cases res with
    | error e' =>
      refine ⟨?_, ?_⟩
      · simp only [generate_daily_ai_digest, hguard, hstories, Bool.false_eq_true, if_false]
        rw [hR]
        exact hmono
      · intro e hres
        have he : e' = e := by
          have : Except.error (ε := String) (α := AudioStats) e' = Except.error e := hres
          injection this
        subst he
        simp only [generate_daily_ai_digest, hguard, hstories, Bool.false_eq_true, if_false]
        rw [hR]
    | ok stats =>
      refine ⟨?_, ?_⟩
      · simp only [generate_daily_ai_digest, hguard, hstories, Bool.false_eq_true, if_false]
        rw [hR]
        exact hmono
      · intro e hres
        exact absurd hres (by simp)

def cfgC2 : PipelineConfig :=
  { output_dir := "docs/en_GB", audio_dir := "docs/en_GB/audio",
    sources := [("BBC News", "https://www.bbc.co.uk/news")], ai_enabled := true }

def storyC2 : NewsStory :=
  { title := "Parliament approves the autumn budget statement", source := "BBC News",
    timestamp := "2026-10-12T08:00:00" }

def ttsWorldC2 : TTSWorld :=
  { edge := fun _ => EdgeResult.err "service unavailable", github_actions := none,
    gtts := Except.error "gTTS failed", measure := none }

def runC2 : FS × List Event × Except String (Option DigestOutcome) :=
  generate_daily_ai_digest cfgC2 "2026_10_12" "2026-10-12 08:00:00"
    (fun _ _ => [storyC2]) (Except.ok "Good morning. Here is your digest.") ttsWorldC2 []

/-- Claim C2 counterexample: a concrete run in which audio rendering fails
(after the digest text was produced) yet the text file for the day is left on
disk — refuting the claim that no output file survives a fatal error. -/
theorem atomicity_counterexample :
    runC2.2.2.isOk = false ∧
    fileExists runC2.1 (textFilenameOf cfgC2 "2026_10_12") = true := by decide

/-- Witness for `text_write_precedes_audio` at a concrete run. -/
theorem text_write_precedes_audio_witness :
    fileExists (generate_daily_ai_digest cfgC2 "2026_10_12" "2026-10-12 08:00:00"
      (fun _ _ => [storyC2]) (Except.ok "Good morning. Here is your digest.")
      ttsWorldC2 []).1 (textFilenameOf cfgC2 "2026_10_12") = true :=
  ((text_write_precedes_audio cfgC2 "2026_10_12" "2026-10-12 08:00:00"
      (fun _ _ => [storyC2]) ttsWorldC2 []).2 "Good morning. Here is your digest."
      (by decide) (by decide)).1

def cfgC5 : PipelineConfig :=
  { output_dir := "docs/fr_FR", audio_dir := "docs/fr_FR/audio",
    sources := [("Le Monde", "https://www.lemonde.fr/")], ai_enabled := true }

def ttsWorldC5 : TTSWorld :=
  { edge := fun _ => EdgeResult.err "unreachable", github_actions := none,
    gtts := Except.error "unreachable", measure := none }

def fsC5 : FS :=
  [(textFilenameOf cfgC5 "2026_10_12", 2048), (audioFilenameOf cfgC5 "2026_10_12", 60000)]

/-- Witness for `idempotency_guard` at a concrete filesystem. -/
theorem idempotency_guard_witness :
    generate_daily_ai_digest cfgC5 "2026_10_12" "2026-10-12 07:00:00" (fun _ _ => [])
      (Except.ok "unused") ttsWorldC5 fsC5 =
      (fsC5, [],
       Except.ok (some (DigestOutcome.existing (audioFilenameOf cfgC5 "2026_10_12")
         (textFilenameOf cfgC5 "2026_10_12") cfgC5.ai_enabled
         (mkRat (getFileSize fsC5 (audioFilenameOf cfgC5 "2026_10_12")) 1024)))) :=
  idempotency_guard cfgC5 "2026_10_12" "2026-10-12 07:00:00" (fun _ _ => [])
    (Except.ok "unused") ttsWorldC5 fsC5 (by decide) (by decide) (by decide)

/-! ### The claim about the headline candidate filter -/

/-- Claim C3 counterexample: a candidate of length 15 that is not a verbatim
repeat and does not begin with a boilerplate marker is nevertheless rejected
(the source requires `len(text) > 15`), refuting the claim that length-15
candidates are accepted. -/
theorem headline_length_15_rejected :
    "Abcdefghijklmno".length = 15 ∧
    List.contains ([] : List String) "Abcdefghijklmno" = false ∧
    (boilerplateStarts.any fun p => pyStartsWith (pyLower "Abcdefghijklmno") p) = false ∧
    headlineKeep "Abcdefghijklmno" [] = false := by decide

/-- Claim C3 (amended): in the candidate filter of
`fetch_headlines_from_source`, every candidate of length 14, 15 or 200 is
rejected, and every candidate of length 16 or 199 is accepted, provided it is
not a verbatim repeat and does not begin with a boilerplate marker. -/
theorem headline_length_boundary (text : String) (seen : List String)
    (hseen : seen.contains text = false)
    (hstart : (boilerplateStarts.any fun p => pyStartsWith (pyLower text) p) = false) :
    (text.length = 14 → headlineKeep text seen = false) ∧
    (text.length = 15 → headlineKeep text seen = false) ∧
    (text.length = 200 → headlineKeep text seen = false) ∧
    (text.length = 16 → headlineKeep text seen = true) ∧
    (text.length = 199 → headlineKeep text seen = true) := by
  refine ⟨?_, ?_, ?_, ?_, ?_⟩ <;> intro hlen
  · simp [headlineKeep, hlen]
  · simp [headlineKeep, hlen]
  · simp [headlineKeep, hlen]
  · have hne : (text == "") = false := by
      rw [beq_eq_false_iff_ne]
      intro he
      rw [he] at hlen
      exact absurd hlen (by decide)
    have hmem : text ∉ seen := by simpa using hseen
    simp [headlineKeep, hseen, hstart, hlen, hne, hmem]
  · have hne : (text == "") = false := by
      rw [beq_eq_false_iff_ne]
      intro he
      rw [he] at hlen
      exact absurd hlen (by decide)
    have hmem : text ∉ seen := by simpa using hseen
    simp [headlineKeep, hseen, hstart, hlen, hne, hmem]

/-- Witness for `headline_length_boundary` at a concrete candidate. -/
theorem headline_length_boundary_witness :
    headlineKeep "Abcdefghijklmnop" [] = true :=
  (headline_length_boundary "Abcdefghijklmnop" [] (by decide) (by decide)).2.2.2.1 (by decide)

/-! ### Concrete witnesses -/

def storyC1a : NewsStory :=
  { title := "Government announces sweeping welfare reform", source := "BBC News",
    timestamp := "t1" }

def storyC1b : NewsStory :=
  { title := "Storm batters coastal towns overnight", source := "Sky News",
    timestamp := "t2" }

def storyC1a' : NewsStory :=
  { storyC1a with theme := some "politics", significance_score := some 9 }

def storyC1b' : NewsStory :=
  { storyC1b with theme := some "politics", significance_score := some 4 }

/-- Witness for `dedup_invariant` at a concrete two-story classification. -/
theorem dedup_invariant_witness :
    ("politics", [storyC1a', storyC1b']) ∈
        applyAiAnalysis [storyC1a, storyC1b] [("politics", [⟨1, 9⟩, ⟨2, 4⟩])] ∧
    List.Pairwise (fun s t => jaccard (storyKeywords s.title) (storyKeywords t.title) ≤ 0.4)
      [storyC1a', storyC1b'] :=
  ⟨by decide, dedup_invariant.1 [storyC1a, storyC1b] [("politics", [⟨1, 9⟩, ⟨2, 4⟩])]
    "politics" [storyC1a', storyC1b'] (by decide)⟩

def ttsWorldC4 : TTSWorld :=
  { edge := fun _ => EdgeResult.err "TLS handshake failed with 401",
    github_actions := some "true", gtts := Except.ok 120000, measure := none }

/-- Witness for `retry_bound_on_auth_failure` with a provider that always
raises an authentication-class error, in the CI environment. -/
theorem retry_bound_witness :
    countAttempts (generate_audio_digest ttsWorldC4 "Digest body." "docs/a.mp3" []).2.1 = 3 ∧
    sleepsOf (generate_audio_digest ttsWorldC4 "Digest body." "docs/a.mp3" []).2.1 = [10, 20] ∧
    Event.gttsCall ∈ (generate_audio_digest ttsWorldC4 "Digest body." "docs/a.mp3" []).2.1 := by
  have h := retry_bound_on_auth_failure ttsWorldC4 "Digest body." "docs/a.mp3" []
    (by intro n _
        show isAuthAttempt (EdgeResult.err "TLS handshake failed with 401") = true
        decide)
  exact ⟨h.1, h.2.1, h.2.2.1 rfl⟩

def ttsWorldC6 : TTSWorld :=
  { edge := fun _ => EdgeResult.err "connection reset by peer",
    github_actions := some "true", gtts := Except.ok 120000, measure := some 30 }

/-- Witness for `no_retry_on_non_auth_error` with a non-authentication
failure on the first call. -/
theorem no_retry_witness :
    countAttempts (generate_audio_digest ttsWorldC6 "Short digest." "docs/b.mp3" []).2.1 = 1 ∧
    sleepsOf (generate_audio_digest ttsWorldC6 "Short digest." "docs/b.mp3" []).2.1 = [] ∧
    Event.gttsCall ∉ (generate_audio_digest ttsWorldC6 "Short digest." "docs/b.mp3" []).2.1 ∧
    (generate_audio_digest ttsWorldC6 "Short digest." "docs/b.mp3" []).2.2 =
      Except.error ("Edge TTS failed with non-retryable error: " ++ "connection reset by peer") :=
  no_retry_on_non_auth_error ttsWorldC6 "Short digest." "docs/b.mp3" []
    "connection reset by peer" rfl (by decide)

def ttsWorldC8 : TTSWorld :=
  { edge := fun _ => EdgeResult.ok 90000, github_actions := none,
    gtts := Except.error "unused", measure := none }

/-- Witness for `audio_stats_estimation_fallback` with a successful render
whose duration measurement raises. -/
theorem audio_stats_estimation_witness :
    ∃ stats,
      (generate_audio_digest ttsWorldC8 "five words are spoken here" "docs/c.mp3" []).2.2 =
        Except.ok stats ∧
      stats.duration = (countWords "five words are spoken here" : ℚ) / 2 ∧
      stats.wps = 2 :=
  audio_stats_estimation_fallback ttsWorldC8 "five words are spoken here" "docs/c.mp3" []
    90000 rfl rfl

/-! ### The mutation-aware model of the classifier's theme building

The source mutates the shared `NewsStory` objects
(`story.theme = theme; story.significance_score = ...`) and stores the
references in the theme buckets, so a later theme that reuses a story index
overwrites fields of a story already stored in an earlier bucket.  The model
below threads the story store through the themes, keeps buckets as lists of
indices into the store, and materialises the returned mapping through the
final store. -/

/-- The per-theme loop of `ai_analyze_stories` over the shared story store:
like `aiThemeLoop`, but the accepted story is updated in place in the store
and the bucket records its index. -/
def aiThemeLoopMut (theme : String) :
    List StoryAnalysis → List NewsStory → List Nat → List (Finset String) →
    List NewsStory × List Nat × List (Finset String)
  | [], store, theme_stories, seen_keywords => (store, theme_stories, seen_keywords)
  | analysis :: rest, store, theme_stories, seen_keywords =>
    let story_idx : Int := analysis.index - 1
    match (if 0 ≤ story_idx ∧ story_idx < (store.length : Int)
           then store.get? story_idx.toNat else none) with
    | none => aiThemeLoopMut theme rest store theme_stories seen_keywords
    | some story =>
      let story_keywords := storyKeywords story.title
      if isDuplicate aiOverlapThreshold seen_keywords story_keywords then
        aiThemeLoopMut theme rest store theme_stories seen_keywords
      else
        let updated : NewsStory :=
          { story with theme := some theme,
                       significance_score := some analysis.significance }
        aiThemeLoopMut theme rest (store.set story_idx.toNat updated)
          (theme_stories ++ [story_idx.toNat]) (seen_keywords ++ [story_keywords])

/-- The significance sort key of the story currently stored at index `i`
(`0` when the index is out of range, which never happens for accepted
indices). -/
def significanceKeyAt (store : List NewsStory) (i : Nat) : Int :=
  match store.get? i with
  | some s => significanceKey s
  | none => 0

/-- Insertion into a list of indices sorted by descending current
significance, mirroring `insertBySignificance`. -/
def insertIdxBySignificance (store : List NewsStory) (x : Nat) : List Nat → List Nat
  | [] => [x]
  | y :: ys =>
    if significanceKeyAt store y ≤ significanceKeyAt store x then x :: y :: ys
    else y :: insertIdxBySignificance store x ys

/-- The significance sort over indices, keyed by the current store. -/
def sortIdxBySignificance (store : List NewsStory) : List Nat → List Nat
  | [] => []
  | x :: xs => insertIdxBySignificance store x (sortIdxBySignificance store xs)

/-- One theme of the theme-building fold over the shared store: run the
loop (mutating the store); when the bucket is nonempty, sort it by the
significance values current at this point and append it as an index list. -/
def applyAiAnalysisMutStep (acc : List NewsStory × List (String × List Nat))
    (p : String × List StoryAnalysis) : List NewsStory × List (String × List Nat) :=
  let r := aiThemeLoopMut p.1 p.2 acc.1 [] []
  if r.2.1.isEmpty then (r.1, acc.2)
  else (r.1, acc.2 ++ [(p.1, sortIdxBySignificance r.1 r.2.1)])

/-- The theme-building fold of `ai_analyze_stories` over the shared store. -/
def applyAiAnalysisMut (all_stories : List NewsStory)
    (ai_analysis : List (String × List StoryAnalysis)) :
    List NewsStory × List (String × List Nat) :=
  ai_analysis.foldl applyAiAnalysisMutStep (all_stories, [])

/-- Dereference a bucket of story indices through a store. -/
def bucketStories (store : List NewsStory) (idxs : List Nat) : List NewsStory :=
  idxs.filterMap store.get?

/-- The mapping observably returned by `ai_analyze_stories`: each bucket's
references read through the final state of the shared story objects. -/
def applyAiAnalysisFinal (all_stories : List NewsStory)
    (ai_analysis : List (String × List StoryAnalysis)) :
    List (String × List NewsStory) :=
  (applyAiAnalysisMut all_stories ai_analysis).2.map
    fun p => (p.1, bucketStories (applyAiAnalysisMut all_stories ai_analysis).1 p.2)

/-! ### Lemmas about the mutation-aware model -/

lemma list_set_get_self {α : Type} :
    ∀ (l : List α) (i : Nat) (a : α), l.get? i = some a → l.set i a = l
  | [], i, a, h => by simp [List.get?] at h
  | x :: xs, 0, a, h => by
    simp only [List.get?] at h
    injection h with h
    rw [h]
    rfl
  | x :: xs, i + 1, a, h => by
    simp only [List.get?] at h
    simp only [List.set]
    rw [list_set_get_self xs i a h]

lemma map_title_set (store : List NewsStory) (i : Nat) (story updated : NewsStory)
    (hget : store.get? i = some story) (htitle : updated.title = story.title) :
    (store.set i updated).map NewsStory.title = store.map NewsStory.title := by
  rw [List.map_set, htitle]
  apply list_set_get_self
  rw [List.get?_map, hget]
  rfl

lemma aiThemeLoopMut_map_title (theme : String) :
    ∀ (analyses : List StoryAnalysis) (store : List NewsStory) (acc : List Nat)
      (seen : List (Finset String)),
      (aiThemeLoopMut theme analyses store acc seen).1.map NewsStory.title
        = store.map NewsStory.title := by
  intro analyses
  induction analyses with
  | nil => intro store acc seen; rfl
  | cons analysis rest ih =>
    intro store acc seen
    simp only [aiThemeLoopMut]
    split
    · exact ih _ _ _
    · rename_i story hM
      have hget : store.get? (analysis.index - 1).toNat = some story := by
        by_cases hc : 0 ≤ analysis.index - 1 ∧ analysis.index - 1 < (store.length : Int)
        · rwa [if_pos hc] at hM
        · rw [if_neg hc] at hM; exact absurd hM (by simp)
      split
      · exact ih _ _ _
      · rw [ih]
        exact map_title_set store _ story _ hget rfl

lemma aiThemeLoopMut_length (theme : String) (analyses : List StoryAnalysis)
    (store : List NewsStory) (acc : List Nat) (seen : List (Finset String)) :
    (aiThemeLoopMut theme analyses store acc seen).1.length = store.length := by
  have h := congrArg List.length (aiThemeLoopMut_map_title theme analyses store acc seen)
  simpa using h

lemma get?_map_title_eq {store₁ store₂ : List NewsStory}
    (h : store₁.map NewsStory.title = store₂.map NewsStory.title) (i : Nat) :
    (store₁.get? i).map NewsStory.title = (store₂.get? i).map NewsStory.title := by
  rw [← List.get?_map, ← List.get?_map, h]

lemma length_eq_of_map_title {store₁ store₂ : List NewsStory}
    (h : store₁.map NewsStory.title = store₂.map NewsStory.title) :
    store₁.length = store₂.length := by
  have := congrArg List.length h
  simpa using this

/-- The control flow of the per-theme loop (which entries are accepted, and
the seen keyword sets) depends only on the titles in the store, which the
loop never changes. -/
lemma aiThemeLoopMut_snd_eq (theme : String) :
    ∀ (analyses : List StoryAnalysis) (store₁ store₂ : List NewsStory)
      (acc : List Nat) (seen : List (Finset String)),
      store₁.map NewsStory.title = store₂.map NewsStory.title →
      (aiThemeLoopMut theme analyses store₁ acc seen).2
        = (aiThemeLoopMut theme analyses store₂ acc seen).2 := by
  intro analyses
  induction analyses with
  | nil => intro store₁ store₂ acc seen _; rfl
  | cons analysis rest ih =>
    intro store₁ store₂ acc seen h
    have hlen : store₁.length = store₂.length := length_eq_of_map_title h
    simp only [aiThemeLoopMut]
    by_cases hc : 0 ≤ analysis.index - 1 ∧ analysis.index - 1 < (store₁.length : Int)
    · have hc₂ : 0 ≤ analysis.index - 1 ∧ analysis.index - 1 < (store₂.length : Int) := by
        rw [← hlen]; exact hc
      rw [if_pos hc, if_pos hc₂]
      have hlt : (analysis.index - 1).toNat < store₁.length := by omega
      obtain ⟨s₁, hs₁⟩ : ∃ s, store₁.get? (analysis.index - 1).toNat = some s :=
        ⟨_, List.get?_eq_get hlt⟩
      obtain ⟨s₂, hs₂⟩ : ∃ s, store₂.get? (analysis.index - 1).toNat = some s :=
        ⟨_, List.get?_eq_get (by omega)⟩
      have htitle : s₁.title = s₂.title := by
        have := get?_map_title_eq h (analysis.index - 1).toNat
        rw [hs₁, hs₂] at this
        simpa using this
      rw [hs₁, hs₂]
      dsimp only
      rw [← htitle]
      by_cases hdup : isDuplicate aiOverlapThreshold seen (storyKeywords s₁.title) = true
      · simp only [hdup, if_true]
        exact ih store₁ store₂ acc seen h
      · rw [Bool.not_eq_true] at hdup
        simp only [hdup, Bool.false_eq_true, if_false]
        refine ih _ _ _ _ ?_
        have e₁ := map_title_set store₁ ((analysis.index - 1).toNat) s₁
          { s₁ with theme := some theme, significance_score := some analysis.significance }
          hs₁ rfl
        have e₂ := map_title_set store₂ ((analysis.index - 1).toNat) s₂
          { title := s₁.title, source := s₂.source, link := s₂.link, timestamp := s₂.timestamp,
            theme := some theme, significance_score := some analysis.significance }
          hs₂ htitle
        rw [e₁, e₂]
        exact h
    · have hc₂ : ¬(0 ≤ analysis.index - 1 ∧ analysis.index - 1 < (store₂.length : Int)) := by
        rw [← hlen]; exact hc
      rw [if_neg hc, if_neg hc₂]
      exact ih store₁ store₂ acc seen h

/-- The loop writes only at the in-range indices mentioned by its entries. -/
lemma aiThemeLoopMut_get?_other (theme : String) :
    ∀ (analyses : List StoryAnalysis) (store : List NewsStory) (acc : List Nat)
      (seen : List (Finset String)) (i : Nat),
      (∀ a ∈ analyses, 0 ≤ a.index - 1 → a.index - 1 < (store.length : Int) →
        (a.index - 1).toNat ≠ i) →
      (aiThemeLoopMut theme analyses store acc seen).1.get? i = store.get? i := by
  intro analyses
  induction analyses with
  | nil => intro store acc seen i _; rfl
  | cons analysis rest ih =>
    intro store acc seen i hprot
    simp only [aiThemeLoopMut]
    split
    · exact ih store acc seen i fun a ha => hprot a (List.mem_cons_of_mem _ ha)
    · rename_i story hM
      have hc : 0 ≤ analysis.index - 1 ∧ analysis.index - 1 < (store.length : Int) := by
        by_contra hc
        rw [if_neg hc] at hM
        exact absurd hM (by simp)
      split
      · exact ih store acc seen i fun a ha => hprot a (List.mem_cons_of_mem _ ha)
      · have hne : (analysis.index - 1).toNat ≠ i :=
          hprot analysis (List.mem_cons_self _ _) hc.1 hc.2
        rw [ih _ _ _ i ?_, List.get?_set_ne _ _ hne]
        intro a ha h1 h2
        refine hprot a (List.mem_cons_of_mem _ ha) h1 ?_
        rwa [List.length_set] at h2

/-- Every index accepted by the loop (beyond the incoming accumulator) is the
0-based index of some in-range entry. -/
lemma aiThemeLoopMut_accepted_mem (theme : String) :
    ∀ (analyses : List StoryAnalysis) (store : List NewsStory) (acc : List Nat)
      (seen : List (Finset String)) (i : Nat),
      i ∈ (aiThemeLoopMut theme analyses store acc seen).2.1 →
      i ∈ acc ∨ ∃ a ∈ analyses, 0 ≤ a.index - 1 ∧ a.index - 1 < (store.length : Int) ∧
        i = (a.index - 1).toNat := by
  intro analyses
  induction analyses with
  | nil => intro store acc seen i h; exact Or.inl h
  | cons analysis rest ih =>
    intro store acc seen i h
    simp only [aiThemeLoopMut] at h
    revert h
    split
    · intro h
      rcases ih store acc seen i h with h' | ⟨a, ha, h1, h2, h3⟩
      · exact Or.inl h'
      · exact Or.inr ⟨a, List.mem_cons_of_mem _ ha, h1, h2, h3⟩
    · rename_i story hM
      have hc : 0 ≤ analysis.index - 1 ∧ analysis.index - 1 < (store.length : Int) := by
        by_contra hc
        rw [if_neg hc] at hM
        exact absurd hM (by simp)
      split
      · intro h
        rcases ih store acc seen i h with h' | ⟨a, ha, h1, h2, h3⟩
        · exact Or.inl h'
        · exact Or.inr ⟨a, List.mem_cons_of_mem _ ha, h1, h2, h3⟩
      · intro h
        rcases ih _ _ _ i h with h' | ⟨a, ha, h1, h2, h3⟩
        · rcases List.mem_append.mp h' with h'' | h''
          · exact Or.inl h''
          · rw [List.mem_singleton] at h''
            exact Or.inr ⟨analysis, List.mem_cons_self _ _, hc.1, hc.2, h''⟩
        · refine Or.inr ⟨a, List.mem_cons_of_mem _ ha, h1, ?_, h3⟩
          rwa [List.length_set] at h2

lemma insertIdxBySignificance_perm (store : List NewsStory) (x : Nat) (l : List Nat) :
    (insertIdxBySignificance store x l).Perm (x :: l) := by
  induction l with
  | nil => exact List.Perm.refl _
  | cons y ys ih =>
    rw [insertIdxBySignificance]
    split
    · exact List.Perm.refl _
    · exact (List.Perm.cons y ih).trans (List.Perm.swap x y ys)

lemma sortIdxBySignificance_perm (store : List NewsStory) (l : List Nat) :
    (sortIdxBySignificance store l).Perm l := by
  induction l with
  | nil => exact List.Perm.refl _
  | cons x xs ih =>
    rw [sortIdxBySignificance]
    exact (insertIdxBySignificance_perm store x _).trans (List.Perm.cons x ih)

lemma insertIdxBySignificance_sorted (store : List NewsStory) (x : Nat) (l : List Nat)
    (hs : l.Pairwise fun i j => significanceKeyAt store j ≤ significanceKeyAt store i) :
    (insertIdxBySignificance store x l).Pairwise fun i j =>
      significanceKeyAt store j ≤ significanceKeyAt store i := by
  induction l with
  | nil => simp [insertIdxBySignificance]
  | cons y ys ih =>
    rw [insertIdxBySignificance]
    rw [List.pairwise_cons] at hs
    split
    · rename_i hyx
      refine List.pairwise_cons.mpr ⟨?_, List.pairwise_cons.mpr hs⟩
      intro z hz
      rcases List.mem_cons.mp hz with rfl | hz'
      · exact hyx
      · exact le_trans (hs.1 z hz') hyx
    · rename_i hyx
      push_neg at hyx
      refine List.pairwise_cons.mpr ⟨?_, ih hs.2⟩
      intro z hz
      rcases List.mem_cons.mp ((insertIdxBySignificance_perm store x ys).mem_iff.mp hz)
        with rfl | hz'
      · exact le_of_lt hyx
      · exact hs.1 z hz'

lemma sortIdxBySignificance_sorted (store : List NewsStory) (l : List Nat) :
    (sortIdxBySignificance store l).Pairwise fun i j =>
      significanceKeyAt store j ≤ significanceKeyAt store i := by
  induction l with
  | nil => simp [sortIdxBySignificance]
  | cons x xs ih => exact insertIdxBySignificance_sorted store x _ ih

lemma sortIdxBySignificance_eq_nil_iff (store : List NewsStory) (l : List Nat) :
    sortIdxBySignificance store l = [] ↔ l = [] := by
  constructor
  · intro h
    have := (sortIdxBySignificance_perm store l).length_eq
    rw [h] at this
    exact List.eq_nil_of_length_eq_zero this.symm
  · rintro rfl
    rfl

lemma mem_sortIdxBySignificance (store : List NewsStory) (l : List Nat) (i : Nat) :
    i ∈ sortIdxBySignificance store l ↔ i ∈ l :=
  (sortIdxBySignificance_perm store l).mem_iff

lemma significanceKeyAt_eq {store : List NewsStory} {i : Nat} {s : NewsStory}
    (h : store.get? i = some s) : significanceKeyAt store i = significanceKey s := by
  unfold significanceKeyAt
  rw [h]

lemma significanceKeyAt_congr {store₁ store₂ : List NewsStory} {i : Nat}
    (h : store₁.get? i = store₂.get? i) :
    significanceKeyAt store₁ i = significanceKeyAt store₂ i := by
  unfold significanceKeyAt
  rw [h]

lemma bucketStories_ne_nil (store : List NewsStory) (idxs : List Nat)
    (hne : idxs ≠ []) (hin : ∀ i ∈ idxs, i < store.length) :
    bucketStories store idxs ≠ [] := by
  cases idxs with
  | nil => exact absurd rfl hne
  | cons i rest =>
    have hi : i < store.length := hin i (List.mem_cons_self _ _)
    obtain ⟨s, hs⟩ : ∃ s, store.get? i = some s := ⟨_, List.get?_eq_get hi⟩
    have hs' : store[i]? = some s := by rw [← List.get?_eq_getElem?]; exact hs
    simp [bucketStories, List.filterMap_cons, hs']

lemma pairwise_bucketStories (store : List NewsStory) (idxs : List Nat)
    (hin : ∀ i ∈ idxs, i < store.length)
    (hp : idxs.Pairwise fun i j => significanceKeyAt store j ≤ significanceKeyAt store i) :
    (bucketStories store idxs).Pairwise fun s t => significanceKey t ≤ significanceKey s := by
  induction idxs with
  | nil => simp [bucketStories]
  | cons i rest ih =>
    rw [List.pairwise_cons] at hp
    have hi : i < store.length := hin i (List.mem_cons_self _ _)
    obtain ⟨s, hs⟩ : ∃ s, store.get? i = some s := ⟨_, List.get?_eq_get hi⟩
    have hs' : store[i]? = some s := by rw [← List.get?_eq_getElem?]; exact hs
    simp only [bucketStories, List.filterMap_cons, hs, hs']
    refine List.pairwise_cons.mpr
      ⟨?_, ih (fun j hj => hin j (List.mem_cons_of_mem _ hj)) hp.2⟩
    intro t ht
    obtain ⟨j, hj, hjt⟩ := List.mem_filterMap.mp ht
    have hk := hp.1 j hj
    rw [significanceKeyAt_eq hjt, significanceKeyAt_eq hs] at hk
    exact hk

lemma list_isEmpty_true_iff {α : Type} (l : List α) : l.isEmpty = true ↔ l = [] := by
  cases l <;> simp

lemma applyAiAnalysisMutStep_fst (st : List NewsStory × List (String × List Nat))
    (p : String × List StoryAnalysis) :
    (applyAiAnalysisMutStep st p).1 = (aiThemeLoopMut p.1 p.2 st.1 [] []).1 := by
  unfold applyAiAnalysisMutStep
  dsimp only
  split <;> rfl

lemma applyAiAnalysisMutStep_snd (st : List NewsStory × List (String × List Nat))
    (p : String × List StoryAnalysis) :
    (applyAiAnalysisMutStep st p).2 = st.2 ∨
      ((aiThemeLoopMut p.1 p.2 st.1 [] []).2.1 ≠ [] ∧
        (applyAiAnalysisMutStep st p).2 = st.2 ++
          [(p.1, sortIdxBySignificance (aiThemeLoopMut p.1 p.2 st.1 [] []).1
            (aiThemeLoopMut p.1 p.2 st.1 [] []).2.1)]) := by
  unfold applyAiAnalysisMutStep
  dsimp only
  split
  · exact Or.inl rfl
  · rename_i hemp
    rw [Bool.not_eq_true, list_isEmpty_false_iff] at hemp
    exact Or.inr ⟨hemp, rfl⟩

/-- Through the fold, the store keeps its length, and every recorded bucket
is nonempty with all indices in range. -/
lemma applyAiAnalysisMut_foldl_wf :
    ∀ (l : List (String × List StoryAnalysis))
      (st : List NewsStory × List (String × List Nat)),
      (∀ p ∈ st.2, p.2 ≠ [] ∧ ∀ i ∈ p.2, i < st.1.length) →
      (l.foldl applyAiAnalysisMutStep st).1.length = st.1.length ∧
      ∀ p ∈ (l.foldl applyAiAnalysisMutStep st).2,
        p.2 ≠ [] ∧ ∀ i ∈ p.2, i < st.1.length := by
  intro l
  induction l with
  | nil => intro st h; exact ⟨rfl, h⟩
  | cons p ps ih =>
    intro st h
    rw [List.foldl_cons]
    have hlen : (aiThemeLoopMut p.1 p.2 st.1 [] []).1.length = st.1.length :=
      aiThemeLoopMut_length p.1 p.2 st.1 [] []
    have hfst := applyAiAnalysisMutStep_fst st p
    have hth : ∀ q ∈ (applyAiAnalysisMutStep st p).2,
        q.2 ≠ [] ∧ ∀ i ∈ q.2, i < (applyAiAnalysisMutStep st p).1.length := by
      intro q hq
      rw [hfst, hlen]
      rcases applyAiAnalysisMutStep_snd st p with hs | ⟨hne, hs⟩
      · rw [hs] at hq
        exact h q hq
      · rw [hs] at hq
        rcases List.mem_append.mp hq with hq' | hq'
        · exact h q hq'
        · rw [List.mem_singleton] at hq'
          subst hq'
          refine ⟨?_, ?_⟩
          · rw [Ne, sortIdxBySignificance_eq_nil_iff]
            exact hne
          · intro i hi
            rw [mem_sortIdxBySignificance] at hi
            rcases aiThemeLoopMut_accepted_mem p.1 p.2 st.1 [] [] i hi with h' | ⟨a, _, h1, h2, h3⟩
            · exact absurd h' (List.not_mem_nil i)
            · omega
    obtain ⟨ih1, ih2⟩ := ih (applyAiAnalysisMutStep st p) hth
    refine ⟨?_, ?_⟩
    · rw [ih1, hfst, hlen]
    · intro q hq
      obtain ⟨h1, h2⟩ := ih2 q hq
      refine ⟨h1, fun i hi => ?_⟩
      have := h2 i hi
      rwa [hfst, hlen] at this

/-- A theme name is present in the fold's output exactly when some entry of
the response for it has a surviving story; survival only depends on the
titles, so it can be read off the original story list. -/
lemma mem_applyAiAnalysisMut_foldl (all_stories : List NewsStory) :
    ∀ (l : List (String × List StoryAnalysis))
      (st : List NewsStory × List (String × List Nat)) (t : String),
      st.1.map NewsStory.title = all_stories.map NewsStory.title →
      ((∃ idxs, (t, idxs) ∈ (l.foldl applyAiAnalysisMutStep st).2) ↔
        (∃ idxs, (t, idxs) ∈ st.2) ∨
          ∃ analyses, (t, analyses) ∈ l ∧
            (aiThemeLoopMut t analyses all_stories [] []).2.1 ≠ []) := by
  intro l
  induction l with
  | nil => intro st t _; simp
  | cons p ps ih =>
    intro st t htitle
    rw [List.foldl_cons]
    have htitle' : (applyAiAnalysisMutStep st p).1.map NewsStory.title
        = all_stories.map NewsStory.title := by
      rw [applyAiAnalysisMutStep_fst, aiThemeLoopMut_map_title]
      exact htitle
    rw [ih (applyAiAnalysisMutStep st p) t htitle']
    have hctrl : (aiThemeLoopMut p.1 p.2 st.1 [] []).2.1
        = (aiThemeLoopMut p.1 p.2 all_stories [] []).2.1 :=
      congrArg Prod.fst (aiThemeLoopMut_snd_eq p.1 p.2 st.1 all_stories [] [] htitle)
    rcases applyAiAnalysisMutStep_snd st p with hs | ⟨hne, hs⟩
    · rw [hs]
      have hempty : (aiThemeLoopMut p.1 p.2 st.1 [] []).2.1 = [] := by
        have hs0 := hs
        unfold applyAiAnalysisMutStep at hs0
        revert hs0
        dsimp only
        split
        · rename_i hemp
          rw [list_isEmpty_true_iff] at hemp
          intro _
          exact hemp
        · intro hs0
          exact absurd (congrArg List.length hs0) (by simp)
      constructor
      · rintro (h | ⟨as, hmem, hne'⟩)
        · exact Or.inl h
        · exact Or.inr ⟨as, List.mem_cons_of_mem _ hmem, hne'⟩
      · rintro (h | ⟨as, hmem, hne'⟩)
        · exact Or.inl h
        · rcases List.mem_cons.mp hmem with heq | hmem'
          · exfalso
            cases p with
            | mk p1 p2 =>
              obtain ⟨ht, has⟩ := Prod.mk.injEq t as p1 p2 |>.mp heq
              subst ht
              subst has
              apply hne'
              rw [← hctrl]
              exact hempty
          · exact Or.inr ⟨as, hmem', hne'⟩
    · rw [hs]
      constructor
      · rintro (⟨idxs, hidxs⟩ | ⟨as, hmem, hne'⟩)
        · rcases List.mem_append.mp hidxs with h' | h'
          · exact Or.inl ⟨idxs, h'⟩
          · rw [List.mem_singleton] at h'
            cases p with
            | mk p1 p2 =>
              obtain ⟨ht, _⟩ := Prod.mk.injEq t idxs p1 _ |>.mp h'
              subst ht
              refine Or.inr ⟨p2, List.mem_cons_self _ _, ?_⟩
              rw [← hctrl]
              exact hne
        · exact Or.inr ⟨as, List.mem_cons_of_mem _ hmem, hne'⟩
      · rintro (⟨idxs, hidxs⟩ | ⟨as, hmem, hne'⟩)
        · exact Or.inl ⟨idxs, List.mem_append_left _ hidxs⟩
        · rcases List.mem_cons.mp hmem with heq | hmem'
          · cases p with
            | mk p1 p2 =>
              obtain ⟨ht, has⟩ := Prod.mk.injEq t as p1 p2 |>.mp heq
              subst ht
              refine Or.inl ⟨_, List.mem_append_right _ (List.mem_singleton.mpr rfl)⟩
          · exact Or.inr ⟨as, hmem', hne'⟩

/-- When no story index is shared between entries of distinct themes, every
bucket recorded by the fold stays sorted (by descending significance) with
respect to the evolving store: later themes only mutate their own indices. -/
lemma applyAiAnalysisMut_foldl_sorted :
    ∀ (l : List (String × List StoryAnalysis))
      (st : List NewsStory × List (String × List Nat)),
      List.Pairwise (fun p q => ∀ a ∈ p.2, ∀ b ∈ q.2, a.index ≠ b.index) l →
      (∀ p ∈ st.2, ∀ i ∈ p.2,
        ∀ q ∈ l, ∀ a ∈ q.2, 0 ≤ a.index - 1 → a.index - 1 < (st.1.length : Int) →
          (a.index - 1).toNat ≠ i) →
      (∀ p ∈ st.2,
        p.2.Pairwise fun i j => significanceKeyAt st.1 j ≤ significanceKeyAt st.1 i) →
      ∀ p ∈ (l.foldl applyAiAnalysisMutStep st).2,
        p.2.Pairwise fun i j =>
          significanceKeyAt (l.foldl applyAiAnalysisMutStep st).1 j ≤
            significanceKeyAt (l.foldl applyAiAnalysisMutStep st).1 i := by
  intro l
  induction l with
  | nil => intro st _ _ hsort; exact hsort
  | cons p ps ih =>
    intro st hdis hprot hsort
    rw [List.foldl_cons]
    rw [List.pairwise_cons] at hdis
    have hlen : (aiThemeLoopMut p.1 p.2 st.1 [] []).1.length = st.1.length :=
      aiThemeLoopMut_length p.1 p.2 st.1 [] []
    have hfst := applyAiAnalysisMutStep_fst st p
    -- the step only rewrites the store at indices mentioned by `p`
    have hkeep : ∀ i : Nat,
        (∀ a ∈ p.2, 0 ≤ a.index - 1 → a.index - 1 < (st.1.length : Int) →
          (a.index - 1).toNat ≠ i) →
        (aiThemeLoopMut p.1 p.2 st.1 [] []).1.get? i = st.1.get? i := by
      intro i hp'
      exact aiThemeLoopMut_get?_other p.1 p.2 st.1 [] [] i hp'
    refine ih (applyAiAnalysisMutStep st p) hdis.2 ?_ ?_
    · -- protection of all recorded buckets against the remaining themes
      intro q hq i hi q' hq' a ha h1 h2
      rw [hfst, hlen] at h2
      rcases applyAiAnalysisMutStep_snd st p with hs | ⟨_, hs⟩
      · rw [hs] at hq
        exact hprot q hq i hi q' (List.mem_cons_of_mem _ hq') a ha h1 h2
      · rw [hs] at hq
        rcases List.mem_append.mp hq with hq'' | hq''
        · exact hprot q hq'' i hi q' (List.mem_cons_of_mem _ hq') a ha h1 h2
        · rw [List.mem_singleton] at hq''
          subst hq''
          rw [mem_sortIdxBySignificance] at hi
          rcases aiThemeLoopMut_accepted_mem p.1 p.2 st.1 [] [] i hi
            with h' | ⟨b, hb, hb1, hb2, hb3⟩
          · exact absurd h' (List.not_mem_nil i)
          · have hne := hdis.1 q' hq' b hb a ha
            omega
    · -- every recorded bucket is sorted with respect to the new store
      intro q hq
      rw [hfst]
      rcases applyAiAnalysisMutStep_snd st p with hs | ⟨_, hs⟩
      · rw [hs] at hq
        refine (hsort q hq).imp_of_mem ?_
        intro i j hi hj hij
        have hgi : (aiThemeLoopMut p.1 p.2 st.1 [] []).1.get? i = st.1.get? i :=
          hkeep i fun a ha h1 h2 => hprot q hq i hi p (List.mem_cons_self _ _) a ha h1 h2
        have hgj : (aiThemeLoopMut p.1 p.2 st.1 [] []).1.get? j = st.1.get? j :=
          hkeep j fun a ha h1 h2 => hprot q hq j hj p (List.mem_cons_self _ _) a ha h1 h2
        rw [significanceKeyAt_congr hgi, significanceKeyAt_congr hgj]
        exact hij
      · rw [hs] at hq
        rcases List.mem_append.mp hq with hq'' | hq''
        · refine (hsort q hq'').imp_of_mem ?_
          intro i j hi hj hij
          have hgi : (aiThemeLoopMut p.1 p.2 st.1 [] []).1.get? i = st.1.get? i :=
            hkeep i fun a ha h1 h2 => hprot q hq'' i hi p (List.mem_cons_self _ _) a ha h1 h2
          have hgj : (aiThemeLoopMut p.1 p.2 st.1 [] []).1.get? j = st.1.get? j :=
            hkeep j fun a ha h1 h2 => hprot q hq'' j hj p (List.mem_cons_self _ _) a ha h1 h2
          rw [significanceKeyAt_congr hgi, significanceKeyAt_congr hgj]
          exact hij
        · rw [List.mem_singleton] at hq''
          subst hq''
          exact sortIdxBySignificance_sorted _ _

lemma applyAiAnalysisMut_def (all_stories : List NewsStory)
    (ai_analysis : List (String × List StoryAnalysis)) :
    applyAiAnalysisMut all_stories ai_analysis
      = ai_analysis.foldl applyAiAnalysisMutStep (all_stories, []) := rfl

/-- Claim C10 (amended): the mapping observably returned by the classifier
never contains an empty story list — a theme key is present exactly when at
least one of its stories survived the index check and the duplicate
post-filter — and, provided no story index is shared between the entries of
two different themes of the model response (the stories are shared mutable
objects, so a later theme's significance assignment rewrites a story already
stored in an earlier bucket), every present list is sorted in descending
order of significance score. -/
theorem theme_mapping_final_nonempty_sorted (all_stories : List NewsStory)
    (ai_analysis : List (String × List StoryAnalysis)) :
    (∀ (theme : String) (bucket : List NewsStory),
        (theme, bucket) ∈ applyAiAnalysisFinal all_stories ai_analysis → bucket ≠ []) ∧
    (∀ theme : String,
        (∃ bucket, (theme, bucket) ∈ applyAiAnalysisFinal all_stories ai_analysis) ↔
        ∃ analyses, (theme, analyses) ∈ ai_analysis ∧
          (aiThemeLoopMut theme analyses all_stories [] []).2.1 ≠ []) ∧
    (List.Pairwise (fun p q => ∀ a ∈ p.2, ∀ b ∈ q.2, a.index ≠ b.index) ai_analysis →
      ∀ (theme : String) (bucket : List NewsStory),
        (theme, bucket) ∈ applyAiAnalysisFinal all_stories ai_analysis →
        bucket.Pairwise fun s t => significanceKey t ≤ significanceKey s) := by
  have hwf := applyAiAnalysisMut_foldl_wf ai_analysis (all_stories, []) (by simp)
  refine ⟨?_, ?_, ?_⟩
  · intro t bucket hmem
    obtain ⟨q, hq, heq⟩ := List.mem_map.mp hmem
    have hqwf := hwf.2 q (by rw [← applyAiAnalysisMut_def]; exact hq)
    have hbs : bucket = bucketStories (applyAiAnalysisMut all_stories ai_analysis).1 q.2 := by
      have := congrArg Prod.snd heq
      simpa using this.symm
    rw [hbs]
    refine bucketStories_ne_nil _ _ hqwf.1 ?_
    intro i hi
    have hb := hqwf.2 i hi
    rw [applyAiAnalysisMut_def, hwf.1]
    exact hb
  · intro t
    have hpres := mem_applyAiAnalysisMut_foldl all_stories ai_analysis (all_stories, []) t rfl
    constructor
    · rintro ⟨bucket, hmem⟩
      obtain ⟨q, hq, heq⟩ := List.mem_map.mp hmem
      have ht : q.1 = t := by
        have := congrArg Prod.fst heq
        simpa using this
      have hex : ∃ idxs, (t, idxs) ∈ (ai_analysis.foldl applyAiAnalysisMutStep (all_stories, [])).2 := by
        refine ⟨q.2, ?_⟩
        rw [← ht]
        exact hq
      rcases hpres.mp hex with ⟨_, h⟩ | h
      · exact absurd h (List.not_mem_nil _)
      · exact h
    · rintro ⟨as, hmem, hne⟩
      obtain ⟨idxs, hidxs⟩ := hpres.mpr (Or.inr ⟨as, hmem, hne⟩)
      exact ⟨bucketStories (applyAiAnalysisMut all_stories ai_analysis).1 idxs,
        List.mem_map.mpr ⟨(t, idxs), hidxs, rfl⟩⟩
  · intro hdis t bucket hmem
    obtain ⟨q, hq, heq⟩ := List.mem_map.mp hmem
    have hbs : bucket = bucketStories (applyAiAnalysisMut all_stories ai_analysis).1 q.2 := by
      have := congrArg Prod.snd heq
      simpa using this.symm
    rw [hbs]
    have hsorted := applyAiAnalysisMut_foldl_sorted ai_analysis (all_stories, []) hdis
      (by simp) (by simp) q (by rw [← applyAiAnalysisMut_def]; exact hq)
    refine pairwise_bucketStories _ _ ?_ ?_
    · intro i hi
      have hb := (hwf.2 q (by rw [← applyAiAnalysisMut_def]; exact hq)).2 i hi
      rw [applyAiAnalysisMut_def, hwf.1]
      exact hb
    · rw [applyAiAnalysisMut_def]
      exact hsorted

def storyMutA : NewsStory :=
  { title := "Government announces sweeping budget reform", source := "BBC News",
    timestamp := "x1" }

def storyMutB : NewsStory :=
  { title := "Storm flooding hits northern towns", source := "Sky News",
    timestamp := "x2" }

def analysisMut : List (String × List StoryAnalysis) :=
  [("politics", [⟨1, 9⟩, ⟨2, 8⟩]), ("economy", [⟨1, 2⟩])]

def storyMutA' : NewsStory :=
  { storyMutA with theme := some "economy", significance_score := some 2 }

def storyMutB' : NewsStory :=
  { storyMutB with theme := some "politics", significance_score := some 8 }

/-- Claim C10 counterexample: a response that lists story 1 under
`politics` (significance 9) and again under `economy` (significance 2)
leaves the returned politics bucket with significance scores (2, 8): the
economy pass mutates the shared story object after the politics bucket was
built and sorted, so the returned bucket is not in descending order. -/
theorem theme_mapping_sorted_counterexample :
    ("politics", [storyMutA', storyMutB']) ∈
        applyAiAnalysisFinal [storyMutA, storyMutB] analysisMut ∧
    ¬ List.Pairwise (fun s t => significanceKey t ≤ significanceKey s)
      [storyMutA', storyMutB'] := by decide

def storyMutW1 : NewsStory :=
  { title := "Hospital waiting times hit record high", source := "Guardian",
    timestamp := "w1" }

def storyMutW2 : NewsStory :=
  { title := "Doctors agree to a contract deal", source := "BBC News",
    timestamp := "w2" }

def analysisMutW : List (String × List StoryAnalysis) :=
  [("health", [⟨2, 5⟩, ⟨1, 8⟩]), ("crime", [⟨7, 3⟩])]

def storyMutW1' : NewsStory :=
  { storyMutW1 with theme := some "health", significance_score := some 8 }

def storyMutW2' : NewsStory :=
  { storyMutW2 with theme := some "health", significance_score := some 5 }

/-- Witness for `theme_mapping_final_nonempty_sorted` at a concrete
response whose themes share no story index (and whose `crime` entry is
out of range, hence dropped). -/
theorem theme_mapping_final_witness :
    ("health", [storyMutW1', storyMutW2']) ∈
        applyAiAnalysisFinal [storyMutW1, storyMutW2] analysisMutW ∧
    [storyMutW1', storyMutW2'] ≠ [] ∧
    List.Pairwise (fun s t => significanceKey t ≤ significanceKey s)
      [storyMutW1', storyMutW2'] :=
  ⟨by decide,
   (theme_mapping_final_nonempty_sorted [storyMutW1, storyMutW2] analysisMutW).1
     "health" [storyMutW1', storyMutW2'] (by decide),
   (theme_mapping_final_nonempty_sorted [storyMutW1, storyMutW2] analysisMutW).2.2
     (by decide) "health" [storyMutW1', storyMutW2'] (by decide)⟩
